import Mathlib

/-!
Shallow embedding of the Phantom wallet adapter
(`packages/wallets/phantom/src/adapter.ts`) together with proofs about its
connect / disconnect / sign / send operations.

Modelling conventions:
* `Uint8Array` values are `List Nat`, with entries `< 256` where that matters.
* JavaScript exceptions are `Except JsError` results; `emit` appends to an
  event list carried in the adapter state.
* URL strings are modelled structurally as a base string plus a list of query
  parameters; navigation targets (`window.location.href` assignments) are
  recorded as (path, params) pairs.
* Code that is not in the adapter source file (the tweetnacl and bs58
  libraries, JSON, and the `@solana/wallet-adapter-base` package) is modelled
  separately; each such definition carries a comment saying what it models.
-/

deriving instance DecidableEq for Except

namespace PhantomAdapter

abbrev Bytes := List Nat

/-- Little-endian digit value: `ofBase b [d0, d1, ...] = d0 + b * (d1 + ...)`. -/
def ofBase (b : Nat) : List Nat → Nat
  | [] => 0
  | d :: ds => d + b * ofBase b ds

/-- Little-endian digits of `n` in base `b`, with explicit fuel so that the
recursion is structural and kernel-reducible. -/
def natToBase (b : Nat) : Nat → Nat → List Nat
  | 0, _ => []
  | fuel + 1, n => if n = 0 then [] else n % b :: natToBase b fuel (n / b)

/-- The bitcoin base-58 alphabet used by the `bs58` library. -/
def base58Alphabet : List Char :=
  "123456789ABCDEFGHJKLMNPQRSTUVWXYZabcdefghijkmnopqrstuvwxyz".toList

def b58DigitChar (d : Nat) : Char := base58Alphabet.getD d '1'

def b58CharDigit (c : Char) : Option Nat :=
  let i := base58Alphabet.indexOf c
  if i < 58 then some i else none

/-- Model of `bs58.encode`: leading zero bytes map to '1' characters, and the
rest is the big-endian base-58 representation of the byte string's value. -/
def b58encodeBytes (bs : Bytes) : String :=
  let zeros := bs.takeWhile (· == 0)
  let rest := bs.dropWhile (· == 0)
  let n := ofBase 256 rest.reverse
  let digits := (natToBase 58 (2 * rest.length) n).reverse
  String.mk (zeros.map (fun _ => '1') ++ digits.map b58DigitChar)

/-- Option-valued map used by the base-58 decoder. -/
def mapOption (f : α → Option β) : List α → Option (List β)
  | [] => some []
  | a :: rest =>
    match f a, mapOption f rest with
    | some b, some bs => some (b :: bs)
    | _, _ => none

/-- Model of `bs58.decode`: leading '1' characters map to zero bytes, the rest
is parsed as a big-endian base-58 number and written out in base 256; any
character outside the alphabet makes decoding fail (the library throws). -/
def b58decodeStr (s : String) : Option Bytes :=
  let cs := s.toList
  let ones := cs.takeWhile (· == '1')
  let rest := cs.dropWhile (· == '1')
  match mapOption b58CharDigit rest with
  | none => none
  | some ds =>
    let n := ofBase 58 ds.reverse
    some (ones.map (fun _ => 0) ++ (natToBase 256 ds.length n).reverse)

def splitCommaAux : List Char → List Char → List String
  | [], acc => [String.mk acc.reverse]
  | c :: cs, acc =>
    if c = ',' then String.mk acc.reverse :: splitCommaAux cs []
    else splitCommaAux cs (c :: acc)

/-- JavaScript `string.split(',')`. -/
def splitComma (s : String) : List String := splitCommaAux s.toList []

def digitVal (c : Char) : Option Nat :=
  if '0' ≤ c ∧ c ≤ '9' then some (c.toNat - '0'.toNat) else none

def parseDecimalAux : List Char → Nat → Option Nat
  | [], acc => some acc
  | c :: cs, acc =>
    match digitVal c with
    | some d => parseDecimalAux cs (10 * acc + d)
    | none => none

/-- JavaScript `Number` coercion as applied to the comma-split storage entries,
composed with the `Uint8Array` byte coercion: decimal strings give their value
mod 256, anything else (`NaN`) gives 0. -/
def strToByte (s : String) : Nat :=
  match s.toList with
  | [] => 0
  | cs => ((parseDecimalAux cs 0).getD 0) % 256

/-- `Uint8Array.from(valueString.split(',').map(Number))`. -/
def storageStringToBytes (s : String) : Bytes := (splitComma s).map strToByte

def joinCommaAux : List String → String
  | [] => ""
  | [s] => s
  | s :: rest => s ++ "," ++ joinCommaAux rest

/-- `Uint8Array.prototype.toString()`: comma-separated decimal bytes. -/
def bytesToStorageString (bs : Bytes) : String := joinCommaAux (bs.map toString)

/-- Modelled from the spec: the error taxonomy of `@solana/wallet-adapter-base`
(spec section 7); each error class becomes a kind tag. -/
inductive ErrKind
  | generic | notReady | connection | notConnected | account | publicKeyE
  | disconnectedE | disconnectionE | sendTransactionE | signTransactionE | signMessageE
  deriving DecidableEq, Repr

/-- Modelled from the spec: a JavaScript error value reaching the adapter:
either one of the typed wallet errors (kind, message, and optionally a cause:
`walletErr` has no cause, `walletErrC` carries one) or a foreign error
carrying only a message. -/
inductive JsError
  | walletErr (k : ErrKind) (msg : String)
  | walletErrC (k : ErrKind) (msg : String) (cause : JsError)
  | foreign (msg : String)
  deriving DecidableEq, Repr

/-- JavaScript `error?.message`. -/
def JsError.message : JsError → String
  | .walletErr _ m => m
  | .walletErrC _ m _ => m
  | .foreign m => m

/-- JavaScript `error instanceof WalletError`. -/
def JsError.isWalletError : JsError → Bool
  | .walletErr .. => true
  | .walletErrC .. => true
  | .foreign _ => false

def notConnectedError : JsError := .walletErr .notConnected ""

def notReadyError : JsError := .walletErr .notReady ""

/-- `WalletReadyState` from `@solana/wallet-adapter-base`. -/
inductive ReadyState
  | Unsupported | NotDetected | Loadable | Installed
  deriving DecidableEq, Repr

/-- The adapter's emitted events (spec section 6). -/
inductive AEvent
  | readyStateChange (s : ReadyState)
  | connectE (pk : Bytes)
  | disconnectE
  | errorE (e : JsError)
  deriving DecidableEq, Repr

/-- A URL modelled structurally: base (scheme, host, path) plus query
parameters, in order. -/
structure Url where
  base : String
  params : List (String × String)
  deriving DecidableEq, Repr

/-- `urlParams.get(k)`: first binding, or null. -/
def paramsGet (ps : List (String × String)) (k : String) : Option String :=
  (ps.find? (fun kv => kv.1 == k)).map (·.2)

/-- `url.searchParams.delete(k)`: removes every binding of `k`. -/
def deleteParam (ps : List (String × String)) (k : String) : List (String × String) :=
  ps.filter (fun kv => kv.1 != k)

def renderParams : List (String × String) → String
  | [] => ""
  | [(k, v)] => k ++ "=" ++ v
  | (k, v) :: rest => k ++ "=" ++ v ++ "&" ++ renderParams rest

/-- `url.toString()` for structural URLs (percent-encoding elided). -/
def renderUrl (u : Url) : String := u.base ++ "?" ++ renderParams u.params

/-- A `nacl.box` key pair. -/
structure KeyPair where
  publicKey : Bytes
  secretKey : Bytes
  deriving DecidableEq, Repr

/-- Model of `nacl.box.before` (key agreement, spec section 4.3): a
deterministic combination of the peer public key and the secret key. No claim
in this development depends on the Diffie-Hellman algebra, only on the
derivation being a deterministic function of its two inputs. -/
def naclBoxBefore (peerPk sk : Bytes) : Bytes :=
  List.zipWith (fun a b => (a + 251 * b) % 256) peerPk sk

def tagOf (b : Bytes) : Bytes := b.length :: b

/-- Model of `nacl.box.after` (authenticated encryption, spec section 4.3):
the ciphertext binds the key and the nonce so that `naclBoxOpenAfter` can
check them and fail on any mismatch. -/
def naclBoxAfter (plaintext nonce key : Bytes) : Bytes :=
  tagOf key ++ tagOf nonce ++ plaintext

/-- Model of `nacl.box.open.after`: explicit failure (null) on
authentication mismatch, per spec section 4.3. -/
def naclBoxOpenAfter (c nonce key : Bytes) : Option Bytes :=
  let t := tagOf key ++ tagOf nonce
  if c.take t.length = t then some (c.drop t.length) else none

def strToBytes (s : String) : Bytes := s.toList.map Char.toNat

def bytesToStr (b : Bytes) : String := String.mk (b.map Char.ofNat)

/-- The decrypted deep-link handshake payload (spec section 6):
`{public_key: string, session: string}`. -/
structure ConnectData where
  public_key : String
  session : String
  deriving DecidableEq, Repr

/-- Modelled from the spec: the JSON serialization of the handshake payload
(section 6), as a length-prefixed pairing of the two strings. -/
def encodeConnectData (d : ConnectData) : Bytes :=
  (strToBytes d.public_key).length :: strToBytes d.public_key ++ strToBytes d.session

/-- Modelled from the spec: `JSON.parse` of the handshake payload plus the
two field accesses, inverse to `encodeConnectData`; malformed bytes fail. -/
def parseConnectData : Bytes → Option ConnectData
  | [] => none
  | n :: rest =>
    if n ≤ rest.length then some ⟨bytesToStr (rest.take n), bytesToStr (rest.drop n)⟩
    else none

/-- The broadcast collaborator, at its interface boundary (spec section 1). -/
structure Connection where
  commitment : Option String

/-- `SendTransactionOptions`: `SendOptions` plus optional local signers
(signers are identified by opaque numeric ids in the model). -/
structure SendTransactionOptions where
  signers : List Nat := []
  preflightCommitment : Option String := none
  deriving DecidableEq, Repr

/-- `options` with `signers` destructured away (the `sendOptions` rest). -/
structure SendOpts where
  preflightCommitment : Option String
  deriving DecidableEq, Repr

/-- A transaction, at the granularity the adapter observes: versioned flag,
opaque payload bytes, and the signers applied so far. -/
structure Tx where
  versioned : Bool
  payloadBytes : Bytes
  signedBy : List Nat := []
  deriving DecidableEq, Repr

/-- `transaction.sign(signers)` / `transaction.partialSign(...signers)`. -/
def txSign (t : Tx) (signers : List Nat) : Tx :=
  { t with signedBy := t.signedBy ++ signers }

/-- `transaction.serialize({requireAllSignatures: false})`. -/
def serializeTx (t : Tx) : Bytes := t.payloadBytes ++ t.signedBy

def encodeOptStr : Option String → Bytes
  | none => [0]
  | some s => 1 :: (strToBytes s).length :: strToBytes s

/-- Modelled from the spec: `JSON.stringify` of the signAndSendTransaction
payload `{transaction, sendOptions, session}` (spec section 4.2), as an
injective byte encoding of the three fields; `session` is nullable. -/
def encodeSendPayload (transaction : String) (sendOptions : SendOpts)
    (session : Option String) : Bytes :=
  tagOf (strToBytes transaction) ++ encodeOptStr sendOptions.preflightCommitment
    ++ encodeOptStr session

/-- The injected extension object (the `PhantomWallet` interface of the
source); its behaviour on the calls the adapter makes is carried as result
fields, since the adapter treats it as an oracle. -/
structure PhantomWallet where
  isPhantom : Bool := true
  publicKeyBytes : Option Bytes := none
  isConnected : Bool := false
  connectResult : Except JsError Unit := .ok ()
  disconnectResult : Except JsError Unit := .ok ()
  signTransactionResult : Except JsError (Option Tx) := .error (.foreign "")
  signAllResult : Except JsError (Option (List Tx)) := .error (.foreign "")
  signAndSendResult : Except JsError String := .error (.foreign "")
  signMessageResult : Except JsError Bytes := .error (.foreign "")

/-- The whole-world state the adapter runs in: the adapter's own fields
(`_connecting`, `_wallet`, `_publicKey`, `_readyState`), the host environment
(window, current URL, localStorage, navigation log), and the entropy streams
backing `nacl.box.keyPair` and `nacl.randomBytes`. -/
structure AdapterState where
  hostCapable : Bool
  hostWallet : Option PhantomWallet
  href : Url
  connecting : Bool
  wallet : Option PhantomWallet
  publicKey : Option Bytes
  readyState : ReadyState
  pollingActive : Bool
  storage : List (String × String)
  entropy : Nat → KeyPair
  entropyIdx : Nat
  nonceStream : Nat → Bytes
  nonceIdx : Nat
  navigations : List (String × List (String × String))
  walletSubscribed : Bool
  events : List AEvent

def deepLinkPublicKeyStorage : String := "PHANTOM_DEEP_LINK_PUBLIC_KEY"

def deepLinkSecretKeyStorage : String := "PHANTOM_DEEP_LINK_SECRET_KEY"

def deepLinkSharedSecretStorage : String := "PHANTOM_DEEP_LINK_SHARED_SECRET"

def deepLinkSessionStorage : String := "PHANTOM_DEEP_LINK_SESSION"

/-- Modelled from the spec: `this.emit` of the base adapter's event emitter
(spec section 2, EventChannel): synchronous append to the event log. -/
def emit (st : AdapterState) (e : AEvent) : AdapterState :=
  { st with events := st.events ++ [e] }

/-- `localStorage.getItem`. -/
def storageGet (st : AdapterState) (k : String) : Option String :=
  (st.storage.find? (fun kv => kv.1 == k)).map (·.2)

/-- `localStorage.setItem` (replaces any previous binding). -/
def storageSetRaw (st : AdapterState) (k v : String) : AdapterState :=
  { st with storage := (k, v) :: st.storage.filter (fun kv => kv.1 != k) }

/-- `localStorageSet` of the source (`value.toString()` on a string is the
identity). -/
def localStorageSet (st : AdapterState) (k v : String) : AdapterState :=
  storageSetRaw st k v

/-- `localStorageGetUint8` of the source: a missing (or empty, hence falsy)
entry emits and throws a generic `WalletError`; otherwise the stored string is
split on commas and coerced back to bytes. -/
def localStorageGetUint8 (st : AdapterState) (k : String) :
    Except JsError Bytes × AdapterState :=
  let e : JsError := .walletErr .generic ("Key " ++ k ++ " not stored")
  match storageGet st k with
  | some s =>
    if s = "" then (.error e, emit st (.errorE e))
    else (.ok (storageStringToBytes s), st)
  | none => (.error e, emit st (.errorE e))

/-- `makeRedirectUrl` of the source: the current URL with the five Phantom
protocol query parameters deleted. -/
def makeRedirectUrl (u : Url) : String :=
  renderUrl ⟨u.base,
    deleteParam (deleteParam (deleteParam (deleteParam (deleteParam
      u.params "phantom_encryption_public_key") "nonce") "data") "errorCode")
      "errorMessage"⟩

/-- `window.location.href = makeDeepLinkUrl(path, params)`: the target
`https://phantom.app/ul/v1/<path>?<params>` is recorded structurally. -/
def navigate (st : AdapterState) (target : String × List (String × String)) :
    AdapterState :=
  { st with navigations := st.navigations ++ [target] }

/-- Model of `nacl.box.keyPair()`: draw the next pair from the entropy
stream. -/
def naclBoxKeyPair (st : AdapterState) : KeyPair × AdapterState :=
  (st.entropy st.entropyIdx, { st with entropyIdx := st.entropyIdx + 1 })

/-- Model of `nacl.randomBytes(24)`: draw the next nonce from the nonce
stream. -/
def nextNonce (st : AdapterState) : Bytes × AdapterState :=
  (st.nonceStream st.nonceIdx, { st with nonceIdx := st.nonceIdx + 1 })

/-- Model of `new PublicKey(base58String)`: decode and require 32 bytes. -/
def mkPublicKeyFromB58 (s : String) : Option Bytes :=
  match b58decodeStr s with
  | some bs => if bs.length = 32 then some bs else none
  | none => none

/-- Model of `new PublicKey(bytes)`. -/
def mkPublicKeyFromBytes (bs : Bytes) : Option Bytes :=
  if bs.length = 32 then some bs else none

/-- The derived `connected` getter: `!!this._wallet?.isConnected`. -/
def connectedProp (st : AdapterState) : Bool :=
  match st.wallet with
  | some w => w.isConnected
  | none => false

/-- `connectUsingDeepLink` of the source: generate one fresh key pair, persist
both halves, build the outbound connect URL (`app_url` and `redirect_link`
both the stripped current URL, `dapp_encryption_public_key` base-58), and
navigate. The `alert(connectUrl)` debug interrupt has no state effect. -/
def connectUsingDeepLink (st : AdapterState) : Except JsError Unit × AdapterState :=
  let (dappDeepLinkKeypair, st1) := naclBoxKeyPair st
  let st2 := localStorageSet st1 deepLinkPublicKeyStorage
    (bytesToStorageString dappDeepLinkKeypair.publicKey)
  let st3 := localStorageSet st2 deepLinkSecretKeyStorage
    (bytesToStorageString dappDeepLinkKeypair.secretKey)
  let appUrl := makeRedirectUrl st3.href
  let connectParams :=
    [("app_url", appUrl),
     ("dapp_encryption_public_key", b58encodeBytes dappDeepLinkKeypair.publicKey),
     ("redirect_link", appUrl),
     ("cluster", "devnet")]
  (.ok (), navigate st3 ("connect", connectParams))

/-- `handleConnectionDeepLinkParams` of the source, with the source's
statement order: load the stored secret key (throwing if absent), decode the
wallet's ephemeral key, derive and persist the shared secret, then attempt
authenticated decryption; on failure emit and throw a connection error; on
success parse the payload, persist the session token, adopt the wallet public
key and emit a connect event. -/
def handleConnectionDeepLinkParams (st : AdapterState)
    (phantomEncryptionPublicKey nonce encryptedData : String) :
    Except JsError Unit × AdapterState :=
  match localStorageGetUint8 st deepLinkSecretKeyStorage with
  | (.error e, st1) => (.error e, st1)
  | (.ok dappSecretKey, st1) =>
    match b58decodeStr phantomEncryptionPublicKey with
    | none => (.error (.foreign "Non-base58 character"), st1)
    | some phantomPublicKey =>
      let sharedSecret := naclBoxBefore phantomPublicKey dappSecretKey
      let st2 := localStorageSet st1 deepLinkSharedSecretStorage
        (bytesToStorageString sharedSecret)
      match b58decodeStr encryptedData, b58decodeStr nonce with
      | some dataBytes, some nonceBytes =>
        match naclBoxOpenAfter dataBytes nonceBytes sharedSecret with
        | none =>
          let e : JsError := .walletErr .connection "Unable to decrypt connection params"
          (.error e, emit st2 (.errorE e))
        | some decrypytedConnectData =>
          match parseConnectData decrypytedConnectData with
          | none => (.error (.foreign "JSON parse error"), st2)
          | some parsedConnectData =>
            let st3 := storageSetRaw st2 deepLinkSessionStorage parsedConnectData.session
            match mkPublicKeyFromB58 parsedConnectData.public_key with
            | none => (.error (.foreign "Invalid public key input"), st3)
            | some pk =>
              (.ok (), emit { st3 with publicKey := some pk } (.connectE pk))
      | _, _ => (.error (.foreign "Non-base58 character"), st2)

/-- `urlParams.get(k)` followed by the truthiness test of
`phantomEncryptionPublicKey && nonce && data`. -/
def getTruthyParam (ps : List (String × String)) (k : String) : Option String :=
  match paramsGet ps k with
  | some s => if s = "" then none else some s
  | none => none

/-- The `readyState === Loadable` branch of `connect`: discriminate on the
response parameters in the current URL. -/
def connectLoadableBranch (st : AdapterState) : Except JsError Unit × AdapterState :=
  let phantomEncryptionPublicKey :=
    getTruthyParam st.href.params "phantom_encryption_public_key"
  let nonce := getTruthyParam st.href.params "nonce"
  let data := getTruthyParam st.href.params "data"
  match phantomEncryptionPublicKey, nonce, data with
  | some p, some n, some d => handleConnectionDeepLinkParams st p n d
  | _, _, _ => connectUsingDeepLink st

/-- The extension branch of `connect` (unreachable while readyState is
Loadable): `window.phantom?.solana || window.solana!`, connect if needed,
read the public key, subscribe, store wallet and identity, emit connect. -/
def connectExtensionBranch (st : AdapterState) : Except JsError Unit × AdapterState :=
  match st.hostWallet with
  | none => (.error (.foreign "TypeError: cannot read properties of undefined"), st)
  | some wallet =>
    let step : Except JsError PhantomWallet :=
      if !wallet.isConnected then
        match wallet.connectResult with
        | .error e => .error (.walletErrC .connection e.message e)
        | .ok _ => .ok { wallet with isConnected := true }
      else .ok wallet
    match step with
    | .error e => (.error e, st)
    | .ok w2 =>
      match w2.publicKeyBytes with
      | none => (.error (.walletErr .account ""), st)
      | some pkBytes =>
        match mkPublicKeyFromBytes pkBytes with
        | none =>
          (.error (.walletErrC .publicKeyE "Invalid public key input"
            (.foreign "Invalid public key input")), st)
        | some publicKey =>
          let st1 := { st with
            wallet := some w2, publicKey := some publicKey, walletSubscribed := true }
          (.ok (), emit st1 (.connectE publicKey))

/-- The strategy dispatch inside `connect`, after the guards and the
`connecting = true` assignment. -/
def connectDispatch (st : AdapterState) : Except JsError Unit × AdapterState :=
  if st.readyState = .Loadable then connectLoadableBranch st
  else connectExtensionBranch st

/-- The `try` body of `connect`: the no-op guard, the readiness check, the
`connecting = true` assignment, then the strategy dispatch. -/
def connectBody (st : AdapterState) : Except JsError Unit × AdapterState :=
  if connectedProp st || st.connecting || !st.hostCapable then (.ok (), st)
  else if st.readyState ≠ .Installed ∧ st.readyState ≠ .Loadable then
    (.error notReadyError, st)
  else
    connectDispatch { st with connecting := true }

/-- `connect` of the source: the body under `try`, with the `catch` emitting
the error before rethrowing and the `finally` resetting `connecting`. -/
def connect (st : AdapterState) : Except JsError Unit × AdapterState :=
  match connectBody st with
  | (.ok _, st1) => (.ok (), { st1 with connecting := false })
  | (.error e, st1) => (.error e, { emit st1 (.errorE e) with connecting := false })

/-- `disconnect` of the source: if a wallet is attached, unsubscribe, clear
wallet and identity, attempt the underlying disconnect (a failure is emitted
as a `WalletDisconnectionError` but swallowed); always emit `disconnect`. -/
def disconnect (st : AdapterState) : AdapterState :=
  let st1 :=
    match st.wallet with
    | none => st
    | some w =>
      let stA := { st with walletSubscribed := false, wallet := none, publicKey := none }
      match w.disconnectResult with
      | .ok _ => stA
      | .error e => emit stA (.errorE (.walletErrC .disconnectionE e.message e))
  emit st1 .disconnectE

/-- Modelled from the spec: `prepareTransaction` from the base adapter fills
network fields (recent blockhash, fee payer) on a legacy transaction before
signing; the payload the adapter later serializes is unchanged. -/
def prepareTransaction (t : Tx) (_conn : Connection) (_o : SendOpts) : Tx := t

/-- `signAndPrepareTransaction` of the source: destructure `signers` out of
the options, then for versioned transactions apply the signers directly, and
for legacy transactions run `prepareTransaction` first and partial-sign. -/
def signAndPrepareTransaction (st : AdapterState) (transaction : Tx)
    (conn : Connection) (options : SendTransactionOptions) :
    Except JsError (Tx × SendOpts) × AdapterState :=
  let sendOptions : SendOpts := ⟨options.preflightCommitment⟩
  let t2 :=
    if transaction.versioned then
      if options.signers.isEmpty then transaction else txSign transaction options.signers
    else
      let p := prepareTransaction transaction conn sendOptions
      if options.signers.isEmpty then p else txSign p options.signers
  (.ok (t2, sendOptions), st)

/-- `sendTransactionUsingDeepLink` of the source: prepare and serialize the
transaction, re-load the persisted dapp public key and shared secret (each
missing entry emits and throws), read the session token (null when missing),
draw a fresh nonce, encrypt `{transaction, sendOptions, session}`, build the
signAndSendTransaction URL and navigate; then return the placeholder string
`'TransactionSignature'`. -/
def sendTransactionUsingDeepLink (st : AdapterState) (transaction : Tx)
    (conn : Connection) (options : SendTransactionOptions) :
    Except JsError String × AdapterState :=
  match signAndPrepareTransaction st transaction conn options with
  | (.error e, st1) => (.error e, st1)
  | (.ok (preparedTransaction, sendOptions), st1) =>
    match localStorageGetUint8 st1 deepLinkPublicKeyStorage with
    | (.error e, st2) => (.error e, st2)
    | (.ok dappPublicKey, st2) =>
      match localStorageGetUint8 st2 deepLinkSharedSecretStorage with
      | (.error e, st3) => (.error e, st3)
      | (.ok sharedSecret, st3) =>
        let session := storageGet st3 deepLinkSessionStorage
        let (nonce, st4) := nextNonce st3
        let serializedTransaction := serializeTx preparedTransaction
        let encryptedPayload := naclBoxAfter
          (encodeSendPayload (b58encodeBytes serializedTransaction) sendOptions session)
          nonce sharedSecret
        let sendParams :=
          [("dapp_encryption_public_key", b58encodeBytes dappPublicKey),
           ("nonce", b58encodeBytes nonce),
           ("redirect_link", makeRedirectUrl st4.href),
           ("payload", b58encodeBytes encryptedPayload)]
        (.ok "TransactionSignature", navigate st4 ("signAndSendTransaction", sendParams))

/-- `sendTransaction` of the source: on the Loadable readyState it goes
straight to the deep-link dispatch; otherwise it requires the wallet object,
prepares and delegates, wrapping foreign delegate failures as
`WalletSendTransactionError` while passing typed wallet errors through; the
outer catch emits every failure before rethrowing. -/
def sendTransaction (st : AdapterState) (transaction : Tx) (conn : Connection)
    (options : SendTransactionOptions) : Except JsError String × AdapterState :=
  let body : Except JsError String × AdapterState :=
    if st.readyState = .Loadable then
      sendTransactionUsingDeepLink st transaction conn options
    else
      match st.wallet with
      | none => (.error notConnectedError, st)
      | some wallet =>
        match signAndPrepareTransaction st transaction conn options with
        | (.error e, st1) =>
          if e.isWalletError then (.error e, st1)
          else (.error (.walletErrC .sendTransactionE e.message e), st1)
        | (.ok (_preparedTransaction, sendOptions), st1) =>
          let _sendOptions2 : SendOpts :=
            ⟨match sendOptions.preflightCommitment with
              | some c => some c
              | none => conn.commitment⟩
          match wallet.signAndSendResult with
          | .error e =>
            if e.isWalletError then (.error e, st1)
            else (.error (.walletErrC .sendTransactionE e.message e), st1)
          | .ok signature => (.ok signature, st1)
  match body with
  | (.ok v, st1) => (.ok v, st1)
  | (.error e, st1) => (.error e, emit st1 (.errorE e))

/-- `signTransaction` of the source: require the wallet object (else
NotConnected), delegate, wrap any delegate failure as
`WalletSignTransactionError`; the outer catch emits before rethrowing. -/
def signTransaction (st : AdapterState) (transaction : Tx) :
    Except JsError Tx × AdapterState :=
  let body : Except JsError Tx × AdapterState :=
    match st.wallet with
    | none => (.error notConnectedError, st)
    | some wallet =>
      match wallet.signTransactionResult with
      | .ok res => (.ok (res.getD transaction), st)
      | .error e => (.error (.walletErrC .signTransactionE e.message e), st)
  match body with
  | (.ok v, st1) => (.ok v, st1)
  | (.error e, st1) => (.error e, emit st1 (.errorE e))

/-- `signAllTransactions` of the source, same shape as `signTransaction`. -/
def signAllTransactions (st : AdapterState) (transactions : List Tx) :
    Except JsError (List Tx) × AdapterState :=
  let body : Except JsError (List Tx) × AdapterState :=
    match st.wallet with
    | none => (.error notConnectedError, st)
    | some wallet =>
      match wallet.signAllResult with
      | .ok res => (.ok (res.getD transactions), st)
      | .error e => (.error (.walletErrC .signTransactionE e.message e), st)
  match body with
  | (.ok v, st1) => (.ok v, st1)
  | (.error e, st1) => (.error e, emit st1 (.errorE e))

/-- `signMessage` of the source: require the wallet object, delegate, wrap
any delegate failure as `WalletSignMessageError`; the outer catch emits
before rethrowing. -/
def signMessage (st : AdapterState) (message : Bytes) :
    Except JsError Bytes × AdapterState :=
  let _ := message
  let body : Except JsError Bytes × AdapterState :=
    match st.wallet with
    | none => (.error notConnectedError, st)
    | some wallet =>
      match wallet.signMessageResult with
      | .ok signature => (.ok signature, st)
      | .error e => (.error (.walletErrC .signMessageE e.message e), st)
  match body with
  | (.ok v, st1) => (.ok v, st1)
  | (.error e, st1) => (.error e, emit st1 (.errorE e))

/-- The `_disconnected` listener of the source. -/
def onDisconnected (st : AdapterState) : AdapterState :=
  match st.wallet with
  | none => st
  | some _ =>
    let st1 := { st with walletSubscribed := false, wallet := none, publicKey := none }
    emit (emit st1 (.errorE (.walletErr .disconnectedE ""))) .disconnectE

/-- The `_accountChanged` listener of the source. -/
def onAccountChanged (st : AdapterState) (newPublicKey : Bytes) : AdapterState :=
  match st.publicKey with
  | none => st
  | some publicKey =>
    match mkPublicKeyFromBytes newPublicKey with
    | none =>
      emit st (.errorE (.walletErrC .publicKeyE "Invalid public key input"
        (.foreign "Invalid public key input")))
    | some np =>
      if publicKey = np then st
      else emit { st with publicKey := some np } (.connectE np)

/-- Modelled from the spec: one tick of `scopePollingDetectionStrategy`
(ReadinessDetector, spec section 4.5): when polling is active and the
extension marker is present, readyState becomes Installed and the change is
announced. In this adapter the polling branch is never armed. -/
def pollStep (st : AdapterState) : AdapterState :=
  if st.pollingActive then
    match st.hostWallet with
    | some w =>
      if w.isPhantom then
        emit { st with readyState := .Installed } (.readyStateChange .Installed)
      else st
    | none => st
  else st

/-- The environment the constructor runs in. -/
structure HostEnv where
  hostCapable : Bool
  hostWallet : Option PhantomWallet
  href : Url
  storage0 : List (String × String)
  entropy : Nat → KeyPair
  nonceStream : Nat → Bytes

/-- The constructor of the source: initial readyState is Unsupported without
a host environment, otherwise NotDetected; then, behind the hardcoded
`useDeepLink = true`, readyState becomes Loadable and the change is emitted;
the polling detection branch is dead code. -/
def mkAdapter (env : HostEnv) : AdapterState :=
  let rs0 : ReadyState := if env.hostCapable then .NotDetected else .Unsupported
  let st0 : AdapterState := {
    hostCapable := env.hostCapable
    hostWallet := env.hostWallet
    href := env.href
    connecting := false
    wallet := none
    publicKey := none
    readyState := rs0
    pollingActive := false
    storage := env.storage0
    entropy := env.entropy
    entropyIdx := 0
    nonceStream := env.nonceStream
    nonceIdx := 0
    navigations := []
    walletSubscribed := false
    events := [] }
  if rs0 ≠ .Unsupported then
    let useDeepLink := true
    if useDeepLink then
      emit { st0 with readyState := .Loadable } (.readyStateChange .Loadable)
    else
      { st0 with pollingActive := true }
  else st0

/-- One step of the adapter's life: any public operation, either wallet
event listener, or one polling tick. -/
inductive Step : AdapterState → AdapterState → Prop
  | connect (st : AdapterState) : Step st (connect st).2
  | disconnect (st : AdapterState) : Step st (disconnect st)
  | sendTransaction (st : AdapterState) (t : Tx) (c : Connection)
      (o : SendTransactionOptions) : Step st (sendTransaction st t c o).2
  | signTransaction (st : AdapterState) (t : Tx) : Step st (signTransaction st t).2
  | signAllTransactions (st : AdapterState) (ts : List Tx) :
      Step st (signAllTransactions st ts).2
  | signMessage (st : AdapterState) (m : Bytes) : Step st (signMessage st m).2
  | onDisconnected (st : AdapterState) : Step st (onDisconnected st)
  | onAccountChanged (st : AdapterState) (pk : Bytes) : Step st (onAccountChanged st pk)
  | poll (st : AdapterState) : Step st (pollStep st)

/-- States reachable from a given start state. -/
def Reachable (start st : AdapterState) : Prop :=
  Relation.ReflTransGen Step start st

/-- A concrete key pair used by the concrete evaluation states below. -/
def kpA : KeyPair := ⟨[1, 2, 3, 4], [5, 6, 7, 8]⟩

/-- A concrete adapter state on the deep-link (Loadable) path: fresh page,
no stored session, no identity. -/
def baseState : AdapterState := {
  hostCapable := true
  hostWallet := none
  href := ⟨"https://dapp.example/page", [("x", "1")]⟩
  connecting := false
  wallet := none
  publicKey := none
  readyState := .Loadable
  pollingActive := false
  storage := []
  entropy := fun _ => kpA
  entropyIdx := 0
  nonceStream := fun _ => [9, 9, 9]
  nonceIdx := 0
  navigations := []
  walletSubscribed := false
  events := [] }

def skD : Bytes := [5, 6, 7, 8]

def pkW : Bytes := [10, 20, 30, 40]

/-- The shared secret the completion phase derives for `pkW` and `skD`. -/
def sharedWD : Bytes := naclBoxBefore pkW skD

def walletPkBytes : Bytes := List.replicate 32 1

def connectDataW : ConnectData := ⟨b58encodeBytes walletPkBytes, "tok1"⟩

def nonceW : Bytes := [7, 7, 7]

def dataW : Bytes := naclBoxAfter (encodeConnectData connectDataW) nonceW sharedWD

/-- A state reloaded after the wallet redirected back with a well-formed
success response. -/
def completionState : AdapterState := { baseState with
  storage := [(deepLinkSecretKeyStorage, bytesToStorageString skD)]
  href := ⟨"https://dapp.example/page",
    [("phantom_encryption_public_key", b58encodeBytes pkW),
     ("nonce", b58encodeBytes nonceW),
     ("data", b58encodeBytes dataW)]⟩ }

/-- Same as `completionState` but the `data` payload does not authenticate. -/
def corruptState : AdapterState := { completionState with
  href := ⟨"https://dapp.example/page",
    [("phantom_encryption_public_key", b58encodeBytes pkW),
     ("nonce", b58encodeBytes nonceW),
     ("data", b58encodeBytes [5])]⟩ }

/-- A Loadable-path state whose storage carries a dapp public key and shared
secret (as after a completed handshake) but no identity and no session. -/
def stockedState : AdapterState := { baseState with
  storage := [(deepLinkPublicKeyStorage, bytesToStorageString [1, 2, 3, 4]),
              (deepLinkSharedSecretStorage, bytesToStorageString sharedWD)] }

/-- A Loadable-path state right after a successful deep-link handshake:
identity and full storage present, no wallet object. -/
def connectedDeepLinkState : AdapterState := { stockedState with
  publicKey := some walletPkBytes
  storage := stockedState.storage ++ [(deepLinkSessionStorage, "tok1")] }

/-- A fresh page whose URL carries the wallet's failure response. -/
def errorCodeState : AdapterState := { baseState with
  href := ⟨"https://dapp.example/page",
    [("errorCode", "4001"), ("errorMessage", "User rejected")]⟩ }

def txA : Tx := ⟨false, [100, 101], []⟩

def connA : Connection := ⟨none⟩

/-- An extension wallet whose signTransaction delegate fails with an
already-typed wallet error. -/
def walletTypedErr : PhantomWallet := {
  publicKeyBytes := some walletPkBytes
  isConnected := true
  signTransactionResult := .error (.walletErr .connection "boom") }

def typedErrState : AdapterState := { baseState with
  readyState := .Installed
  wallet := some walletTypedErr }

/-- An extension wallet whose underlying disconnect call fails. -/
def failingDisconnectWallet : PhantomWallet := {
  isConnected := true
  disconnectResult := .error (.foreign "rpc closed") }

def disconnectState : AdapterState := { baseState with
  readyState := .Installed
  wallet := some failingDisconnectWallet
  publicKey := some walletPkBytes
  walletSubscribed := true }

/-- A concrete host-capable construction environment. -/
def envA : HostEnv := ⟨true, none, ⟨"https://dapp.example/page", [("x", "1")]⟩, [],
  fun _ => kpA, fun _ => [9, 9, 9]⟩

/-- A non-Loadable (extension) state with no wallet object attached. -/
def installedNoWalletState : AdapterState := { baseState with readyState := .Installed }

theorem natToBase_zero (b : Nat) : ∀ fuel, natToBase b fuel 0 = []
  | 0 => rfl
  | _ + 1 => by simp [natToBase]

theorem ofBase_natToBase (b : Nat) (hb : 2 ≤ b) :
    ∀ fuel n, n < b ^ fuel → ofBase b (natToBase b fuel n) = n := by
  intro fuel
  induction fuel with
  | zero =>
    intro n hn
    have h0 : n = 0 := by simpa using hn
    subst h0
    rfl
  | succ f ih =>
    intro n hn
    by_cases h0 : n = 0
    · subst h0
      simp [natToBase, ofBase]
    · have hbpos : 0 < b := by omega
      have hdiv : n / b < b ^ f := by
        rw [Nat.div_lt_iff_lt_mul hbpos]
        calc n < b ^ (f + 1) := hn
        _ = b ^ f * b := by rw [pow_succ]
      simp only [natToBase, if_neg h0, ofBase]
      rw [ih (n / b) hdiv]
      exact Nat.mod_add_div n b

theorem natToBase_allLt (b : Nat) (hb : 0 < b) :
    ∀ fuel n x, x ∈ natToBase b fuel n → x < b := by
  intro fuel
  induction fuel with
  | zero =>
    intro n x hx
    simp [natToBase] at hx
  | succ f ih =>
    intro n x hx
    by_cases h0 : n = 0
    · subst h0
      simp [natToBase] at hx
    · simp only [natToBase, if_neg h0, List.mem_cons] at hx
      rcases hx with h | h
      · subst h
        exact Nat.mod_lt _ hb
      · exact ih _ _ h

theorem ofBase_lt_pow (b : Nat) :
    ∀ l : List Nat, (∀ x ∈ l, x < b) → ofBase b l < b ^ l.length := by
  intro l
  induction l with
  | nil =>
    intro _
    simp [ofBase]
  | cons d ds ih =>
    intro hall
    have hd : d < b := hall d (List.mem_cons_self d ds)
    have hm : ofBase b ds + 1 ≤ b ^ ds.length :=
      ih fun x hx => hall x (List.mem_cons_of_mem _ hx)
    simp only [ofBase, List.length_cons]
    calc d + b * ofBase b ds < b + b * ofBase b ds := Nat.add_lt_add_right hd _
    _ = b * (ofBase b ds + 1) := by ring
    _ ≤ b * b ^ ds.length := Nat.mul_le_mul (Nat.le_refl b) hm
    _ = b ^ (ds.length + 1) := by rw [pow_succ, Nat.mul_comm]

theorem pow_le_ofBase (b : Nat) :
    ∀ l : List Nat, l ≠ [] → l.getLast? ≠ some 0 →
      b ^ (l.length - 1) ≤ ofBase b l := by
  intro l
  induction l with
  | nil =>
    intro h _
    exact absurd rfl h
  | cons d ds ih =>
    intro _ hlast
    cases ds with
    | nil =>
      have hd : d ≠ 0 := by simpa using hlast
      simp only [ofBase, List.length_cons, List.length_nil]
      simpa [ofBase] using Nat.one_le_iff_ne_zero.mpr hd
    | cons y t =>
      have hlast2 : (y :: t).getLast? ≠ some 0 := by
        rwa [List.getLast?_cons_cons] at hlast
      have ihm : b ^ ((y :: t).length - 1) ≤ ofBase b (y :: t) :=
        ih (by simp) hlast2
      have ihm2 : b ^ t.length ≤ ofBase b (y :: t) := by
        simpa using ihm
      simp only [ofBase, List.length_cons, Nat.add_sub_cancel]
      calc b ^ (t.length + 1) = b * b ^ t.length := by rw [pow_succ, Nat.mul_comm]
      _ ≤ b * ofBase b (y :: t) := Nat.mul_le_mul (Nat.le_refl b) ihm2
      _ ≤ d + b * ofBase b (y :: t) := Nat.le_add_left _ _

theorem natToBase_ne_nil (b : Nat) (f : Nat) (n : Nat) (h0 : n ≠ 0) :
    natToBase b (f + 1) n ≠ [] := by
  simp [natToBase, h0]

theorem natToBase_getLast_ne_zero (b : Nat) (hb : 2 ≤ b) :
    ∀ fuel n, n ≠ 0 → n < b ^ fuel → (natToBase b fuel n).getLast? ≠ some 0 := by
  intro fuel
  induction fuel with
  | zero =>
    intro n h0 hn
    exfalso
    simp at hn
    omega
  | succ f ih =>
    intro n h0 hn
    simp only [natToBase, if_neg h0]
    by_cases hdiv : n / b = 0
    · have hlt : n < b := by
        have hdm := Nat.div_add_mod n b
        rw [hdiv, Nat.mul_zero, Nat.zero_add] at hdm
        have := Nat.mod_lt n (show 0 < b by omega)
        omega
      have hz : natToBase b f (n / b) = [] := by
        rw [hdiv]
        exact natToBase_zero b f
      rw [hz]
      have hone : ([n % b] : List Nat).getLast? = some (n % b) := rfl
      rw [hone, Nat.mod_eq_of_lt hlt]
      simpa using h0
    · have hfne : f ≠ 0 := by
        intro hf
        subst hf
        simp only [Nat.zero_add, pow_one] at hn
        exact hdiv (Nat.div_eq_of_lt hn)
      obtain ⟨f2, rfl⟩ : ∃ f2, f = f2 + 1 := ⟨f - 1, by omega⟩
      have hdivlt : n / b < b ^ (f2 + 1) := by
        rw [Nat.div_lt_iff_lt_mul (show 0 < b by omega)]
        calc n < b ^ (f2 + 1 + 1) := hn
        _ = b ^ (f2 + 1) * b := by rw [pow_succ]
      have ihr := ih (n / b) hdiv hdivlt
      cases hl : natToBase b (f2 + 1) (n / b) with
      | nil => exact absurd hl (natToBase_ne_nil b f2 (n / b) hdiv)
      | cons a l =>
        rw [List.getLast?_cons_cons]
        rw [hl] at ihr
        exact ihr

theorem natToBase_ofBase (b : Nat) (hb : 2 ≤ b) :
    ∀ l : List Nat, (∀ x ∈ l, x < b) → (l = [] ∨ l.getLast? ≠ some 0) →
      ∀ fuel, l.length ≤ fuel → natToBase b fuel (ofBase b l) = l := by
  intro l
  induction l with
  | nil =>
    intro _ _ fuel _
    rw [show ofBase b [] = 0 from rfl]
    exact natToBase_zero b fuel
  | cons d ds ih =>
    intro hall hlast fuel hfuel
    rcases hlast with h | hlast
    · exact absurd h (by simp)
    obtain ⟨f, rfl⟩ : ∃ f, fuel = f + 1 := by
      refine ⟨fuel - 1, ?_⟩
      simp only [List.length_cons] at hfuel
      omega
    have hd : d < b := hall d (List.mem_cons_self d ds)
    have hdsall : ∀ x ∈ ds, x < b := fun x hx => hall x (List.mem_cons_of_mem _ hx)
    have hmod : (d + b * ofBase b ds) % b = d := by
      rw [Nat.add_mul_mod_self_left, Nat.mod_eq_of_lt hd]
    have hdiv : (d + b * ofBase b ds) / b = ofBase b ds := by
      rw [Nat.add_mul_div_left _ _ (show 0 < b by omega), Nat.div_eq_of_lt hd,
        Nat.zero_add]
    have hne : d + b * ofBase b ds ≠ 0 := by
      cases ds with
      | nil =>
        have hd0 : d ≠ 0 := by simpa using hlast
        simp only [ofBase, Nat.mul_zero, Nat.add_zero]
        exact hd0
      | cons y t =>
        have h1 : (y :: t).getLast? ≠ some 0 := by
          rwa [List.getLast?_cons_cons] at hlast
        have h2 : 1 ≤ ofBase b (y :: t) := by
          have hp := pow_le_ofBase b (y :: t) (by simp) h1
          have hp1 : 1 ≤ b ^ ((y :: t).length - 1) :=
            Nat.one_le_pow _ _ (by omega)
          omega
        have h3 : b * 1 ≤ b * ofBase b (y :: t) := Nat.mul_le_mul (Nat.le_refl b) h2
        omega
    show natToBase b (f + 1) (d + b * ofBase b ds) = d :: ds
    simp only [natToBase, if_neg hne, hmod, hdiv]
    congr 1
    cases ds with
    | nil =>
      rw [show ofBase b [] = 0 from rfl]
      exact natToBase_zero b f
    | cons y t =>
      have h1 : (y :: t).getLast? ≠ some 0 := by
        rwa [List.getLast?_cons_cons] at hlast
      refine ih hdsall (Or.inr h1) f ?_
      simp only [List.length_cons] at hfuel ⊢
      omega

theorem toList_mk (L : List Char) : (String.mk L).toList = L := rfl

theorem b58CharDigit_b58DigitChar :
    ∀ d, d < 58 → b58CharDigit (b58DigitChar d) = some d := by decide

theorem b58DigitChar_ne_one :
    ∀ d, d < 58 → d ≠ 0 → (b58DigitChar d == '1') = false := by decide

theorem takeWhile_append_all {α : Type} (p : α → Bool) :
    ∀ l1 l2 : List α, (∀ x ∈ l1, p x = true) →
      List.takeWhile p (l1 ++ l2) = l1 ++ List.takeWhile p l2 := by
  intro l1
  induction l1 with
  | nil => intro l2 _; simp
  | cons a t ih =>
    intro l2 hall
    have ha : p a = true := hall a (List.mem_cons_self a t)
    simp only [List.cons_append, List.takeWhile_cons, ha, if_pos]
    rw [ih l2 fun x hx => hall x (List.mem_cons_of_mem _ hx)]

theorem dropWhile_append_all {α : Type} (p : α → Bool) :
    ∀ l1 l2 : List α, (∀ x ∈ l1, p x = true) →
      List.dropWhile p (l1 ++ l2) = List.dropWhile p l2 := by
  intro l1
  induction l1 with
  | nil => intro l2 _; simp
  | cons a t ih =>
    intro l2 hall
    have ha : p a = true := hall a (List.mem_cons_self a t)
    simp only [List.cons_append, List.dropWhile_cons, ha]
    exact ih l2 fun x hx => hall x (List.mem_cons_of_mem _ hx)

theorem takeWhile_cons_neg {α : Type} (p : α → Bool) (a : α) (l : List α)
    (h : p a = false) : List.takeWhile p (a :: l) = [] := by
  simp [List.takeWhile_cons, h]

theorem dropWhile_cons_neg {α : Type} (p : α → Bool) (a : α) (l : List α)
    (h : p a = false) : List.dropWhile p (a :: l) = a :: l := by
  simp [List.dropWhile_cons, h]

theorem takeWhile_all {α : Type} (p : α → Bool) (l : List α)
    (h : ∀ x ∈ l, p x = true) : List.takeWhile p l = l := by
  have := takeWhile_append_all p l [] h
  simpa using this

theorem dropWhile_all {α : Type} (p : α → Bool) (l : List α)
    (h : ∀ x ∈ l, p x = true) : List.dropWhile p l = [] := by
  have := dropWhile_append_all p l [] h
  simpa using this

theorem mem_takeWhile_sat {α : Type} (p : α → Bool) :
    ∀ l x, x ∈ List.takeWhile p l → p x = true := by
  intro l
  induction l with
  | nil => intro x hx; simp at hx
  | cons a t ih =>
    intro x hx
    rw [List.takeWhile_cons] at hx
    cases hpa : p a with
    | true =>
      rw [hpa, if_pos rfl] at hx
      rcases List.mem_cons.mp hx with h | h
      · subst h; exact hpa
      · exact ih x h
    | false =>
      rw [hpa] at hx
      simp at hx

theorem mem_dropWhile_mem {α : Type} (p : α → Bool) :
    ∀ l x, x ∈ List.dropWhile p l → x ∈ l := by
  intro l
  induction l with
  | nil => intro x hx; simp at hx
  | cons a t ih =>
    intro x hx
    rw [List.dropWhile_cons] at hx
    cases hpa : p a with
    | true =>
      rw [hpa, if_pos rfl] at hx
      exact List.mem_cons_of_mem _ (ih x hx)
    | false =>
      rw [hpa, if_neg (by simp)] at hx
      exact hx

theorem dropWhile_eq_cons_sat {α : Type} (p : α → Bool) :
    ∀ l a t, List.dropWhile p l = a :: t → p a = false := by
  intro l
  induction l with
  | nil => intro a t h; simp at h
  | cons x xs ih =>
    intro a t h
    rw [List.dropWhile_cons] at h
    cases hpx : p x with
    | true =>
      rw [hpx, if_pos rfl] at h
      exact ih a t h
    | false =>
      rw [hpx, if_neg (by simp)] at h
      have hax : a = x := ((List.cons.injEq ..).mp h).1.symm
      rw [hax]
      exact hpx

theorem mapOption_map_inv {α β : Type} (f : α → Option β) (g : β → α) :
    ∀ l : List β, (∀ b ∈ l, f (g b) = some b) →
      mapOption f (l.map g) = some l := by
  intro l
  induction l with
  | nil => intro _; rfl
  | cons b t ih =>
    intro hall
    have hb : f (g b) = some b := hall b (List.mem_cons_self b t)
    simp only [List.map_cons, mapOption, hb,
      ih fun x hx => hall x (List.mem_cons_of_mem _ hx)]

theorem map_const_zero_of_all_zero :
    ∀ l : List Nat, (∀ x ∈ l, x = 0) → l.map (fun _ => 0) = l := by
  intro l
  induction l with
  | nil => intro _; rfl
  | cons a t ih =>
    intro hall
    have ha : a = 0 := hall a (List.mem_cons_self a t)
    simp only [List.map_cons, ih fun x hx => hall x (List.mem_cons_of_mem _ hx)]
    rw [ha]

theorem b58decode_shape (zeros digits : List Nat)
    (hz : ∀ x ∈ zeros, x = 0)
    (hd : ∀ d ∈ digits, d < 58)
    (hne : digits = [] ∨ ∃ d0 dt, digits = d0 :: dt ∧ d0 ≠ 0) :
    b58decodeStr (String.mk (zeros.map (fun _ => '1') ++ digits.map b58DigitChar))
      = some (zeros ++ (natToBase 256 digits.length (ofBase 58 digits.reverse)).reverse) := by
  have honesall : ∀ c ∈ zeros.map (fun _ => '1'), (c == '1') = true := by
    intro c hc
    rcases List.mem_map.mp hc with ⟨x, _, rfl⟩
    rfl
  have htake : List.takeWhile (· == '1')
      (zeros.map (fun _ => '1') ++ digits.map b58DigitChar)
      = zeros.map (fun _ => '1') := by
    rw [takeWhile_append_all _ _ _ honesall]
    rcases hne with h | ⟨d0, dt, hcons, hd0⟩
    · subst h
      simp
    · subst hcons
      rw [List.map_cons,
        takeWhile_cons_neg (· == '1') (b58DigitChar d0) (dt.map b58DigitChar)
          (b58DigitChar_ne_one d0 (hd d0 (List.mem_cons_self d0 dt)) hd0),
        List.append_nil]
  have hdrop : List.dropWhile (· == '1')
      (zeros.map (fun _ => '1') ++ digits.map b58DigitChar)
      = digits.map b58DigitChar := by
    rw [dropWhile_append_all _ _ _ honesall]
    rcases hne with h | ⟨d0, dt, hcons, hd0⟩
    · subst h
      simp
    · subst hcons
      rw [List.map_cons,
        dropWhile_cons_neg (· == '1') (b58DigitChar d0) (dt.map b58DigitChar)
          (b58DigitChar_ne_one d0 (hd d0 (List.mem_cons_self d0 dt)) hd0)]
  have hmapO : mapOption b58CharDigit (digits.map b58DigitChar) = some digits :=
    mapOption_map_inv _ _ digits fun d hdm =>
      b58CharDigit_b58DigitChar d (hd d hdm)
  have hzeros : (zeros.map (fun _ => '1')).map (fun _ => 0) = zeros := by
    rw [List.map_map]
    exact map_const_zero_of_all_zero zeros hz
  simp only [b58decodeStr, toList_mk, hdrop, hmapO, htake, hzeros,
    List.length_map]

theorem b58_roundtrip (bs : Bytes) (h : ∀ x ∈ bs, x < 256) :
    b58decodeStr (b58encodeBytes bs) = some bs := by
  have hzero : ∀ x ∈ bs.takeWhile (· == 0), x = 0 := by
    intro x hx
    have := mem_takeWhile_sat _ bs x hx
    simpa using this
  have hallrest : ∀ x ∈ bs.dropWhile (· == 0), x < 256 :=
    fun x hx => h x (mem_dropWhile_mem _ bs x hx)
  have hsplit : bs.takeWhile (· == 0) ++ bs.dropWhile (· == 0) = bs :=
    List.takeWhile_append_dropWhile (fun x => x == 0) bs
  have hshape : b58encodeBytes bs = String.mk
      ((bs.takeWhile (· == 0)).map (fun _ => '1') ++
        ((natToBase 58 (2 * (bs.dropWhile (· == 0)).length)
          (ofBase 256 (bs.dropWhile (· == 0)).reverse)).reverse).map b58DigitChar) := rfl
  rw [hshape]
  cases hr : bs.dropWhile (· == 0) with
  | nil =>
    have hd0 : (natToBase 58 (2 * ([] : Bytes).length)
        (ofBase 256 ([] : Bytes).reverse)).reverse = ([] : List Nat) := rfl
    rw [hd0]
    rw [b58decode_shape _ [] hzero (by intro d hd; simp at hd) (Or.inl rfl)]
    rw [show (natToBase 256 ([] : List Nat).length
      (ofBase 58 ([] : List Nat).reverse)).reverse = ([] : List Nat) from rfl]
    rw [List.append_nil]
    conv_rhs => rw [← hsplit, hr, List.append_nil]
  | cons r0 rtail =>
    have hr0 : r0 ≠ 0 := by
      have := dropWhile_eq_cons_sat (· == 0) bs r0 rtail hr
      simpa using this
    rw [hr] at hallrest
    have hrevlast : ((r0 :: rtail).reverse : List Nat).getLast? = some r0 := by
      rw [List.getLast?_reverse]
      rfl
    have hrevall : ∀ x ∈ (r0 :: rtail).reverse, x < 256 := by
      intro x hx
      exact hallrest x (List.mem_reverse.mp hx)
    have hrevne : ((r0 :: rtail).reverse : List Nat) ≠ [] := by
      simp
    have hrevlastne : ((r0 :: rtail).reverse : List Nat).getLast? ≠ some 0 := by
      rw [hrevlast]
      simpa using hr0
    have hnpos : ofBase 256 (r0 :: rtail).reverse ≠ 0 := by
      have h1 := pow_le_ofBase 256 (r0 :: rtail).reverse hrevne hrevlastne
      have h2 : 1 ≤ (256 : Nat) ^ ((r0 :: rtail).reverse.length - 1) :=
        Nat.one_le_pow _ _ (by omega)
      omega
    have hnlt : ofBase 256 (r0 :: rtail).reverse < 256 ^ (r0 :: rtail).length := by
      have := ofBase_lt_pow 256 (r0 :: rtail).reverse hrevall
      rwa [List.length_reverse] at this
    have hfuel : ofBase 256 (r0 :: rtail).reverse < 58 ^ (2 * (r0 :: rtail).length) := by
      calc ofBase 256 (r0 :: rtail).reverse < 256 ^ (r0 :: rtail).length := hnlt
      _ ≤ (58 ^ 2) ^ (r0 :: rtail).length := Nat.pow_le_pow_left (by norm_num) _
      _ = 58 ^ (2 * (r0 :: rtail).length) := by rw [← pow_mul]
    have hlastLE : (natToBase 58 (2 * (r0 :: rtail).length)
        (ofBase 256 (r0 :: rtail).reverse)).getLast? ≠ some 0 :=
      natToBase_getLast_ne_zero 58 (by norm_num) _ _ hnpos hfuel
    have hLEall : ∀ d ∈ natToBase 58 (2 * (r0 :: rtail).length)
        (ofBase 256 (r0 :: rtail).reverse), d < 58 :=
      fun d hd => natToBase_allLt 58 (by norm_num) _ _ d hd
    have hLEne : natToBase 58 (2 * (r0 :: rtail).length)
        (ofBase 256 (r0 :: rtail).reverse) ≠ [] := by
      have h2 : 2 * (r0 :: rtail).length = 2 * rtail.length + 1 + 1 := by
        simp only [List.length_cons]
        omega
      rw [h2]
      exact natToBase_ne_nil 58 _ _ hnpos
    have hdigall : ∀ d ∈ (natToBase 58 (2 * (r0 :: rtail).length)
        (ofBase 256 (r0 :: rtail).reverse)).reverse, d < 58 :=
      fun d hd => hLEall d (List.mem_reverse.mp hd)
    have hdigne : (natToBase 58 (2 * (r0 :: rtail).length)
        (ofBase 256 (r0 :: rtail).reverse)).reverse = [] ∨
        ∃ d0 dt, (natToBase 58 (2 * (r0 :: rtail).length)
          (ofBase 256 (r0 :: rtail).reverse)).reverse = d0 :: dt ∧ d0 ≠ 0 := by
      cases hdg : (natToBase 58 (2 * (r0 :: rtail).length)
          (ofBase 256 (r0 :: rtail).reverse)).reverse with
      | nil =>
        exfalso
        apply hLEne
        have := congrArg List.reverse hdg
        rwa [List.reverse_reverse] at this
      | cons d0 dt =>
        refine Or.inr ⟨d0, dt, rfl, ?_⟩
        have hh : (natToBase 58 (2 * (r0 :: rtail).length)
            (ofBase 256 (r0 :: rtail).reverse)).reverse.head? = some d0 := by
          rw [hdg]
          rfl
        rw [List.head?_reverse] at hh
        intro hc
        subst hc
        exact hlastLE hh
    rw [b58decode_shape _ _ hzero hdigall hdigne]
    rw [List.reverse_reverse, List.length_reverse]
    rw [ofBase_natToBase 58 (by norm_num) _ _ hfuel]
    have hlen : (r0 :: rtail).length ≤ (natToBase 58 (2 * (r0 :: rtail).length)
        (ofBase 256 (r0 :: rtail).reverse)).length := by
      have hlow : (256 : Nat) ^ ((r0 :: rtail).length - 1) ≤
          ofBase 256 (r0 :: rtail).reverse := by
        have := pow_le_ofBase 256 (r0 :: rtail).reverse hrevne hrevlastne
        rwa [List.length_reverse] at this
      have hlow2 : (58 : Nat) ^ ((r0 :: rtail).length - 1) ≤
          ofBase 256 (r0 :: rtail).reverse :=
        le_trans (Nat.pow_le_pow_left (by norm_num) _) hlow
      have hup : ofBase 256 (r0 :: rtail).reverse <
          58 ^ (natToBase 58 (2 * (r0 :: rtail).length)
            (ofBase 256 (r0 :: rtail).reverse)).length := by
        have h1 := ofBase_lt_pow 58 (natToBase 58 (2 * (r0 :: rtail).length)
          (ofBase 256 (r0 :: rtail).reverse)) hLEall
        rwa [ofBase_natToBase 58 (by norm_num) _ _ hfuel] at h1
      have hcmp : (58 : Nat) ^ ((r0 :: rtail).length - 1) <
          58 ^ (natToBase 58 (2 * (r0 :: rtail).length)
            (ofBase 256 (r0 :: rtail).reverse)).length :=
        lt_of_le_of_lt hlow2 hup
      have hlt := (Nat.pow_lt_pow_iff_right (by norm_num : 1 < 58)).mp hcmp
      simp only [List.length_cons] at hlt ⊢
      omega
    rw [natToBase_ofBase 256 (by norm_num) _ hrevall (Or.inr hrevlastne) _
      (by rwa [List.length_reverse])]
    rw [List.reverse_reverse]
    conv_rhs => rw [← hsplit, hr]

theorem find?_filter_ne (k1 k2 : String) (h : k1 ≠ k2) :
    ∀ l : List (String × String),
      List.find? (fun kv => kv.1 == k1) (l.filter (fun kv => kv.1 != k2))
        = List.find? (fun kv => kv.1 == k1) l := by
  intro l
  induction l with
  | nil => rfl
  | cons kv t ih =>
    rw [List.filter_cons]
    by_cases h2 : kv.1 = k2
    · have hb : (kv.1 != k2) = false := by simp [h2]
      rw [hb, if_neg (by simp)]
      have hk1 : (kv.1 == k1) = false := by
        simp only [beq_eq_false_iff_ne]
        rw [h2]
        exact fun hc => h hc.symm
      simp only [List.find?_cons, hk1]
      exact ih
    · have hb : (kv.1 != k2) = true := by simp [h2]
      rw [hb, if_pos rfl]
      by_cases hk1 : kv.1 = k1
      · have hbeq : (kv.1 == k1) = true := by simp [hk1]
        simp only [List.find?_cons, hbeq]
      · have hbeq : (kv.1 == k1) = false := by simp [hk1]
        simp only [List.find?_cons, hbeq]
        exact ih

theorem storageGet_setRaw_eq (st : AdapterState) (k v : String) :
    storageGet (storageSetRaw st k v) k = some v := by
  simp [storageGet, storageSetRaw]

theorem storageGet_setRaw_ne (st : AdapterState) (k k2 v : String) (h : k ≠ k2) :
    storageGet (storageSetRaw st k2 v) k = storageGet st k := by
  simp only [storageGet, storageSetRaw]
  have hbeq : (k2 == k) = false := by
    simp only [beq_eq_false_iff_ne]
    exact fun hc => h hc.symm
  simp only [List.find?_cons, hbeq]
  rw [find?_filter_ne k k2 h st.storage]

theorem localStorageGetUint8_on_some (st : AdapterState) (k s : String)
    (hs : storageGet st k = some s) (hne : s ≠ "") :
    localStorageGetUint8 st k = (.ok (storageStringToBytes s), st) := by
  unfold localStorageGetUint8
  rw [hs]
  simp [hne]

theorem localStorageGetUint8_on_none (st : AdapterState) (k : String)
    (hs : storageGet st k = none) :
    localStorageGetUint8 st k =
      (.error (.walletErr .generic ("Key " ++ k ++ " not stored")),
        emit st (.errorE (.walletErr .generic ("Key " ++ k ++ " not stored")))) := by
  unfold localStorageGetUint8
  rw [hs]

theorem localStorageGetUint8_rs (st : AdapterState) (k : String) :
    (localStorageGetUint8 st k).2.readyState = st.readyState ∧
    (localStorageGetUint8 st k).2.pollingActive = st.pollingActive := by
  unfold localStorageGetUint8
  rcases hsg : storageGet st k with _ | s
  · simp [emit]
  · by_cases hs : s = "" <;> simp [hs, emit]

theorem handleConnection_rs (st : AdapterState) (a b c : String) :
    (handleConnectionDeepLinkParams st a b c).2.readyState = st.readyState ∧
    (handleConnectionDeepLinkParams st a b c).2.pollingActive = st.pollingActive := by
  unfold handleConnectionDeepLinkParams
  have h1 := localStorageGetUint8_rs st deepLinkSecretKeyStorage
  rcases hg : localStorageGetUint8 st deepLinkSecretKeyStorage with ⟨r, st1⟩
  rw [hg] at h1
  cases r with
  | error e => simpa using h1
  | ok sk =>
    simp only []
    rcases b58decodeStr a with _ | ppk
    · simpa using h1
    · rcases b58decodeStr c with _ | db <;> rcases b58decodeStr b with _ | nb
      all_goals simp_all [localStorageSet, storageSetRaw, emit]
      all_goals rcases naclBoxOpenAfter db nb (naclBoxBefore ppk sk) with _ | dec
      all_goals simp_all
      all_goals (split <;> (try split) <;> simp_all)

theorem connectUsingDeepLink_rs (st : AdapterState) :
    (connectUsingDeepLink st).2.readyState = st.readyState ∧
    (connectUsingDeepLink st).2.pollingActive = st.pollingActive := by
  simp [connectUsingDeepLink, localStorageSet, storageSetRaw, emit, navigate,
    naclBoxKeyPair]

theorem connectLoadableBranch_rs (st : AdapterState) :
    (connectLoadableBranch st).2.readyState = st.readyState ∧
    (connectLoadableBranch st).2.pollingActive = st.pollingActive := by
  unfold connectLoadableBranch
  rcases getTruthyParam st.href.params "phantom_encryption_public_key" with _ | p <;>
    rcases getTruthyParam st.href.params "nonce" with _ | n <;>
    rcases getTruthyParam st.href.params "data" with _ | d
  all_goals
    first
    | exact connectUsingDeepLink_rs st
    | exact handleConnection_rs st _ _ _

theorem connectExtensionBranch_rs (st : AdapterState) :
    (connectExtensionBranch st).2.readyState = st.readyState ∧
    (connectExtensionBranch st).2.pollingActive = st.pollingActive := by
  unfold connectExtensionBranch
  rcases st.hostWallet with _ | w
  · simp
  · simp only []
    split
    · simp
    · split <;> try split
      all_goals simp_all [emit]

theorem connectDispatch_rs (st : AdapterState) :
    (connectDispatch st).2.readyState = st.readyState ∧
    (connectDispatch st).2.pollingActive = st.pollingActive := by
  unfold connectDispatch
  split
  · exact connectLoadableBranch_rs st
  · exact connectExtensionBranch_rs st

theorem connectBody_rs (st : AdapterState) :
    (connectBody st).2.readyState = st.readyState ∧
    (connectBody st).2.pollingActive = st.pollingActive := by
  unfold connectBody
  split
  · simp
  · split
    · simp
    · exact connectDispatch_rs { st with connecting := true }

theorem connect_rs (st : AdapterState) :
    (connect st).2.readyState = st.readyState ∧
    (connect st).2.pollingActive = st.pollingActive := by
  unfold connect
  have h1 := connectBody_rs st
  rcases hg : connectBody st with ⟨r, st1⟩
  rw [hg] at h1
  cases r <;> simpa [emit] using h1

theorem disconnect_rs (st : AdapterState) :
    (disconnect st).readyState = st.readyState ∧
    (disconnect st).pollingActive = st.pollingActive := by
  unfold disconnect
  rcases st.wallet with _ | w
  · simp [emit]
  · rcases hd : w.disconnectResult with e | u <;> simp [hd, emit]

theorem signAndPrepareTransaction_snd (st : AdapterState) (t : Tx) (conn : Connection)
    (o : SendTransactionOptions) : (signAndPrepareTransaction st t conn o).2 = st := rfl

theorem sendTransactionUsingDeepLink_rs (st : AdapterState) (t : Tx) (conn : Connection)
    (o : SendTransactionOptions) :
    (sendTransactionUsingDeepLink st t conn o).2.readyState = st.readyState ∧
    (sendTransactionUsingDeepLink st t conn o).2.pollingActive = st.pollingActive := by
  unfold sendTransactionUsingDeepLink
  simp only [signAndPrepareTransaction]
  have h1 := localStorageGetUint8_rs st deepLinkPublicKeyStorage
  rcases h1g : localStorageGetUint8 st deepLinkPublicKeyStorage with ⟨r1, st1⟩
  rw [h1g] at h1
  cases r1 with
  | error e => exact h1
  | ok dpk =>
    simp only []
    have h2 := localStorageGetUint8_rs st1 deepLinkSharedSecretStorage
    rcases h2g : localStorageGetUint8 st1 deepLinkSharedSecretStorage with ⟨r2, st2⟩
    rw [h2g] at h2
    cases r2 with
    | error e =>
      exact ⟨h2.1.trans h1.1, h2.2.trans h1.2⟩
    | ok shared =>
      exact ⟨h2.1.trans h1.1, h2.2.trans h1.2⟩

theorem sendTransaction_rs (st : AdapterState) (t : Tx) (conn : Connection)
    (o : SendTransactionOptions) :
    (sendTransaction st t conn o).2.readyState = st.readyState ∧
    (sendTransaction st t conn o).2.pollingActive = st.pollingActive := by
  unfold sendTransaction
  split
  · have h1 := sendTransactionUsingDeepLink_rs st t conn o
    rcases hg : sendTransactionUsingDeepLink st t conn o with ⟨r, st1⟩
    rw [hg] at h1
    cases r <;> simpa [emit] using h1
  · rcases st.wallet with _ | w
    · simp [emit]
    · simp only [signAndPrepareTransaction]
      rcases hd : w.signAndSendResult with e | sig
      · by_cases he : JsError.isWalletError e = true <;> simp [hd, he, emit]
      · simp [hd, emit]

theorem signTransaction_rs (st : AdapterState) (t : Tx) :
    (signTransaction st t).2.readyState = st.readyState ∧
    (signTransaction st t).2.pollingActive = st.pollingActive := by
  unfold signTransaction
  rcases st.wallet with _ | w
  · simp [emit]
  · rcases hd : w.signTransactionResult with e | r <;> simp [hd, emit]

theorem signAllTransactions_rs (st : AdapterState) (ts : List Tx) :
    (signAllTransactions st ts).2.readyState = st.readyState ∧
    (signAllTransactions st ts).2.pollingActive = st.pollingActive := by
  unfold signAllTransactions
  rcases st.wallet with _ | w
  · simp [emit]
  · rcases hd : w.signAllResult with e | r <;> simp [hd, emit]

theorem signMessage_rs (st : AdapterState) (m : Bytes) :
    (signMessage st m).2.readyState = st.readyState ∧
    (signMessage st m).2.pollingActive = st.pollingActive := by
  unfold signMessage
  rcases st.wallet with _ | w
  · simp [emit]
  · rcases hd : w.signMessageResult with e | r <;> simp [hd, emit]

theorem onDisconnected_rs (st : AdapterState) :
    (onDisconnected st).readyState = st.readyState ∧
    (onDisconnected st).pollingActive = st.pollingActive := by
  unfold onDisconnected
  rcases st.wallet with _ | w <;> simp [emit]

theorem onAccountChanged_rs (st : AdapterState) (pk : Bytes) :
    (onAccountChanged st pk).readyState = st.readyState ∧
    (onAccountChanged st pk).pollingActive = st.pollingActive := by
  unfold onAccountChanged
  rcases st.publicKey with _ | cur
  · simp
  · rcases mkPublicKeyFromBytes pk with _ | np
    · simp [emit]
    · by_cases he : cur = np <;> simp [he, emit]

theorem pollStep_inactive (st : AdapterState) (h : st.pollingActive = false) :
    pollStep st = st := by
  unfold pollStep
  rw [h]
  simp

theorem step_preserves_loadable {st st2 : AdapterState} (h : Step st st2)
    (hrs : st.readyState = .Loadable) (hpa : st.pollingActive = false) :
    st2.readyState = .Loadable ∧ st2.pollingActive = false := by
  cases h with
  | connect =>
    exact ⟨(connect_rs st).1.trans hrs, (connect_rs st).2.trans hpa⟩
  | disconnect =>
    exact ⟨(disconnect_rs st).1.trans hrs, (disconnect_rs st).2.trans hpa⟩
  | sendTransaction t c o =>
    exact ⟨(sendTransaction_rs st t c o).1.trans hrs,
      (sendTransaction_rs st t c o).2.trans hpa⟩
  | signTransaction t =>
    exact ⟨(signTransaction_rs st t).1.trans hrs, (signTransaction_rs st t).2.trans hpa⟩
  | signAllTransactions ts =>
    exact ⟨(signAllTransactions_rs st ts).1.trans hrs,
      (signAllTransactions_rs st ts).2.trans hpa⟩
  | signMessage m =>
    exact ⟨(signMessage_rs st m).1.trans hrs, (signMessage_rs st m).2.trans hpa⟩
  | onDisconnected =>
    exact ⟨(onDisconnected_rs st).1.trans hrs, (onDisconnected_rs st).2.trans hpa⟩
  | onAccountChanged pk =>
    exact ⟨(onAccountChanged_rs st pk).1.trans hrs, (onAccountChanged_rs st pk).2.trans hpa⟩
  | poll =>
    rw [pollStep_inactive st hpa]
    exact ⟨hrs, hpa⟩

theorem storageGet_emit (st : AdapterState) (e : AEvent) (k : String) :
    storageGet (emit st e) k = storageGet st k := rfl

theorem storageGet_navigate (st : AdapterState) (u : String × List (String × String))
    (k : String) : storageGet (navigate st u) k = storageGet st k := rfl

/-- C1: code-bug evidence. On the Loadable (deep-link) path, `sendTransaction`
records the outbound navigation and then returns the constant string
`'TransactionSignature'` — a fabricated, signature-shaped placeholder — as its
successful result, instead of an explicit "dispatched, result pending /
unavailable" outcome. Evaluated at a concrete post-handshake state. -/
theorem c1_deepLink_send_returns_placeholder :
    (sendTransaction connectedDeepLinkState txA connA {}).1 = .ok "TransactionSignature" ∧
    (sendTransaction connectedDeepLinkState txA connA {}).2.navigations.map Prod.fst
      = ["signAndSendTransaction"] := by decide

/-- C2 counterexample: at a concrete completion state whose `data` payload
fails authentication, the connection error is raised — and yet a freshly
derived sharedSecret has been persisted to storage (no entry existed before
the call), contradicting "written only after successful authentication". -/
theorem c2_sharedSecret_persisted_on_failure :
    storageGet corruptState deepLinkSharedSecretStorage = none ∧
    (connect corruptState).1 =
      .error (.walletErr .connection "Unable to decrypt connection params") ∧
    storageGet (connect corruptState).2 deepLinkSharedSecretStorage
      = some (bytesToStorageString sharedWD) ∧
    (connect corruptState).2.publicKey = none := by
  set_option maxRecDepth 4000 in decide

/-- C2 (amended): in the completion phase the shared secret is derived and
persisted BEFORE the response payload is authenticated. On decryption failure
a connection error is raised and aborts — no identity is adopted and no
session token is written — but the derived sharedSecret value has already
been written to durable storage at that point. -/
theorem c2_sharedSecret_persisted_before_auth (st : AdapterState)
    (a b c s : String) (ppk db nb : Bytes)
    (hs : storageGet st deepLinkSecretKeyStorage = some s) (hne : s ≠ "")
    (hppk : b58decodeStr a = some ppk) (hdb : b58decodeStr c = some db)
    (hnb : b58decodeStr b = some nb)
    (hfail : naclBoxOpenAfter db nb (naclBoxBefore ppk (storageStringToBytes s)) = none) :
    (handleConnectionDeepLinkParams st a b c).1 =
      .error (.walletErr .connection "Unable to decrypt connection params") ∧
    storageGet (handleConnectionDeepLinkParams st a b c).2 deepLinkSharedSecretStorage
      = some (bytesToStorageString (naclBoxBefore ppk (storageStringToBytes s))) ∧
    (handleConnectionDeepLinkParams st a b c).2.publicKey = st.publicKey ∧
    storageGet (handleConnectionDeepLinkParams st a b c).2 deepLinkSessionStorage
      = storageGet st deepLinkSessionStorage := by
  unfold handleConnectionDeepLinkParams
  rw [localStorageGetUint8_on_some st _ s hs hne]
  simp only [hppk, hdb, hnb, localStorageSet, hfail]
  refine ⟨by trivial, ?_, by trivial, ?_⟩
  · rw [storageGet_emit, storageGet_setRaw_eq]
  · rw [storageGet_emit, storageGet_setRaw_ne _ _ _ _ (by decide)]

/-- C2 witness: the amended statement evaluated at the concrete corrupted
completion state. -/
theorem c2_sharedSecret_persisted_before_auth_witness :
    (handleConnectionDeepLinkParams corruptState (b58encodeBytes pkW)
      (b58encodeBytes nonceW) (b58encodeBytes [5])).1 =
      .error (.walletErr .connection "Unable to decrypt connection params") ∧
    storageGet (handleConnectionDeepLinkParams corruptState (b58encodeBytes pkW)
      (b58encodeBytes nonceW) (b58encodeBytes [5])).2 deepLinkSharedSecretStorage
      = some (bytesToStorageString
          (naclBoxBefore pkW (storageStringToBytes (bytesToStorageString skD)))) := by
  have main := c2_sharedSecret_persisted_before_auth corruptState
    (b58encodeBytes pkW) (b58encodeBytes nonceW) (b58encodeBytes [5])
    (bytesToStorageString skD) pkW [5] nonceW rfl (by decide)
    (by decide) (by decide) (by decide) (by decide)
  exact ⟨main.1, main.2.1⟩

/-- C3 counterexample: on the Loadable deep-link path, `sendTransaction` with
no identity present (publicKey null, wallet null) raises no NotConnected
error: it succeeds with the placeholder result. -/
theorem c3_loadable_send_without_identity :
    stockedState.publicKey = none ∧ stockedState.wallet.isNone = true ∧
    (sendTransaction stockedState txA connA ⟨[], some "confirmed"⟩).1
      = .ok "TransactionSignature" := ⟨rfl, rfl, by decide⟩

theorem localStorageGetUint8_on_empty (st : AdapterState) (k : String)
    (hs : storageGet st k = some "") :
    localStorageGetUint8 st k =
      (.error (.walletErr .generic ("Key " ++ k ++ " not stored")),
        emit st (.errorE (.walletErr .generic ("Key " ++ k ++ " not stored")))) := by
  unfold localStorageGetUint8
  rw [hs]
  simp

theorem signTransaction_not_notConnected (st : AdapterState) (t : Tx)
    (w : PhantomWallet) (hw : st.wallet = some w) :
    (signTransaction st t).1 ≠ .error notConnectedError := by
  unfold signTransaction
  rw [hw]
  simp only []
  rcases hd : w.signTransactionResult with e | r <;> simp [hd, notConnectedError]

theorem signAllTransactions_not_notConnected (st : AdapterState) (ts : List Tx)
    (w : PhantomWallet) (hw : st.wallet = some w) :
    (signAllTransactions st ts).1 ≠ .error notConnectedError := by
  unfold signAllTransactions
  rw [hw]
  simp only []
  rcases hd : w.signAllResult with e | r <;> simp [hd, notConnectedError]

theorem signMessage_not_notConnected (st : AdapterState) (m : Bytes)
    (w : PhantomWallet) (hw : st.wallet = some w) :
    (signMessage st m).1 ≠ .error notConnectedError := by
  unfold signMessage
  rw [hw]
  simp only []
  rcases hd : w.signMessageResult with e | r <;> simp [hd, notConnectedError]

/-- The deep-link dispatch has exactly two outcomes: the placeholder success,
or one of the storage-key-missing wallet errors. -/
theorem sendTransactionUsingDeepLink_result (st : AdapterState) (t : Tx)
    (conn : Connection) (o : SendTransactionOptions) :
    (sendTransactionUsingDeepLink st t conn o).1 = .ok "TransactionSignature" ∨
    ∃ k, (sendTransactionUsingDeepLink st t conn o).1 =
      .error (.walletErr .generic ("Key " ++ k ++ " not stored")) := by
  unfold sendTransactionUsingDeepLink
  simp only [signAndPrepareTransaction]
  rcases hsg : storageGet st deepLinkPublicKeyStorage with _ | s
  · rw [localStorageGetUint8_on_none st _ hsg]
    exact Or.inr ⟨deepLinkPublicKeyStorage, rfl⟩
  · by_cases hs : s = ""
    · subst hs
      rw [localStorageGetUint8_on_empty st _ hsg]
      exact Or.inr ⟨deepLinkPublicKeyStorage, rfl⟩
    · rw [localStorageGetUint8_on_some st _ s hsg hs]
      simp only []
      rcases hsg2 : storageGet st deepLinkSharedSecretStorage with _ | q
      · rw [localStorageGetUint8_on_none st _ hsg2]
        exact Or.inr ⟨deepLinkSharedSecretStorage, rfl⟩
      · by_cases hq : q = ""
        · subst hq
          rw [localStorageGetUint8_on_empty st _ hsg2]
          exact Or.inr ⟨deepLinkSharedSecretStorage, rfl⟩
        · rw [localStorageGetUint8_on_some st _ q hsg2 hq]
          exact Or.inl rfl

theorem sendTransaction_loadable_result (st : AdapterState) (t : Tx)
    (conn : Connection) (o : SendTransactionOptions)
    (hrs : st.readyState = .Loadable) :
    (sendTransaction st t conn o).1 = .ok "TransactionSignature" ∨
    ∃ k, (sendTransaction st t conn o).1 =
      .error (.walletErr .generic ("Key " ++ k ++ " not stored")) := by
  unfold sendTransaction
  rw [if_pos hrs]
  have hres := sendTransactionUsingDeepLink_result st t conn o
  rcases hg : sendTransactionUsingDeepLink st t conn o with ⟨r, st1⟩
  rw [hg] at hres
  cases r with
  | ok v =>
    rcases hres with h | ⟨k, h⟩
    · exact Or.inl (by simpa using h)
    · simp at h
  | error e =>
    rcases hres with h | ⟨k, h⟩
    · simp at h
    · exact Or.inr ⟨k, by simpa using h⟩

/-- C3 (amended): `signTransaction`, `signAllTransactions` and `signMessage`
raise NotConnected exactly when the wallet object is absent (then also
emitting the error event); `sendTransaction` performs that check only on the
non-Loadable path. The Loadable deep-link path has no connectivity check at
all: regardless of wallet and identity it either succeeds with the
placeholder result or fails with a storage-key error — never NotConnected. -/
theorem c3_notConnected_guards (st : AdapterState) (t : Tx) (ts : List Tx)
    (m : Bytes) (conn : Connection) (o : SendTransactionOptions) :
    ((signTransaction st t).1 = .error notConnectedError ↔ st.wallet = none) ∧
    (st.wallet = none →
      (signTransaction st t).2 = emit st (.errorE notConnectedError)) ∧
    ((signAllTransactions st ts).1 = .error notConnectedError ↔ st.wallet = none) ∧
    (st.wallet = none →
      (signAllTransactions st ts).2 = emit st (.errorE notConnectedError)) ∧
    ((signMessage st m).1 = .error notConnectedError ↔ st.wallet = none) ∧
    (st.wallet = none →
      (signMessage st m).2 = emit st (.errorE notConnectedError)) ∧
    (st.readyState ≠ .Loadable → st.wallet = none →
      (sendTransaction st t conn o).1 = .error notConnectedError) ∧
    (st.readyState = .Loadable →
      (sendTransaction st t conn o).1 = .ok "TransactionSignature" ∨
      ∃ k, (sendTransaction st t conn o).1 =
        .error (.walletErr .generic ("Key " ++ k ++ " not stored"))) ∧
    (st.readyState = .Loadable →
      (sendTransaction st t conn o).1 ≠ .error notConnectedError) := by
  have hnever : st.readyState = .Loadable →
      (sendTransaction st t conn o).1 ≠ .error notConnectedError := by
    intro hrs hc
    rcases sendTransaction_loadable_result st t conn o hrs with h | ⟨k, h⟩
    · rw [hc] at h
      simp at h
    · rw [hc] at h
      simp [notConnectedError] at h
  refine ⟨?_, ?_, ?_, ?_, ?_, ?_, ?_, sendTransaction_loadable_result st t conn o, hnever⟩
  · constructor
    · intro hc
      rcases hw : st.wallet with _ | w
      · rfl
      · exact absurd hc (signTransaction_not_notConnected st t w hw)
    · intro hw
      unfold signTransaction
      rw [hw]
  · intro hw
    unfold signTransaction
    rw [hw]
  · constructor
    · intro hc
      rcases hw : st.wallet with _ | w
      · rfl
      · exact absurd hc (signAllTransactions_not_notConnected st ts w hw)
    · intro hw
      unfold signAllTransactions
      rw [hw]
  · intro hw
    unfold signAllTransactions
    rw [hw]
  · constructor
    · intro hc
      rcases hw : st.wallet with _ | w
      · rfl
      · exact absurd hc (signMessage_not_notConnected st m w hw)
    · intro hw
      unfold signMessage
      rw [hw]
  · intro hw
    unfold signMessage
    rw [hw]
  · intro hrs hw
    unfold sendTransaction
    rw [if_neg hrs, hw]

/-- C3 witness: both directions evaluated concretely — NotConnected raised at
a non-Loadable wallet-free state, and never raised on a Loadable-path send
even with identity and wallet both absent. -/
theorem c3_notConnected_guards_witness :
    (signTransaction installedNoWalletState txA).1 = .error notConnectedError ∧
    (signMessage installedNoWalletState [1]).1 = .error notConnectedError ∧
    (sendTransaction installedNoWalletState txA connA {}).1 = .error notConnectedError ∧
    (sendTransaction stockedState txA connA {}).1 ≠ .error notConnectedError := by
  have main := c3_notConnected_guards installedNoWalletState txA [] [1] connA {}
  have main2 := c3_notConnected_guards stockedState txA [] [1] connA {}
  exact ⟨main.1.mpr rfl, main.2.2.2.2.1.mpr rfl,
    main.2.2.2.2.2.2.1 (by decide) rfl,
    main2.2.2.2.2.2.2.2.2 rfl⟩

/-- C5: code-bug evidence. `connect()` at a URL carrying only the failure
parameters {errorCode, errorMessage} succeeds, generates a fresh key pair and
navigates to a brand-new connect request: the failure response is treated as
if no response were present, and is never recognized as a failure (no error
raised, no error event). -/
theorem c5_errorCode_treated_as_no_response :
    (connect errorCodeState).1 = .ok () ∧
    (connect errorCodeState).2.entropyIdx = errorCodeState.entropyIdx + 1 ∧
    (connect errorCodeState).2.navigations.map Prod.fst = ["connect"] ∧
    (connect errorCodeState).2.events = [] := by decide

theorem localStorageGetUint8_wallet (st : AdapterState) (k : String) :
    (localStorageGetUint8 st k).2.wallet = st.wallet := by
  unfold localStorageGetUint8
  rcases hsg : storageGet st k with _ | s
  · simp [emit]
  · by_cases hs : s = "" <;> simp [hs, emit]

theorem handleConnection_wallet (st : AdapterState) (a b c : String) :
    (handleConnectionDeepLinkParams st a b c).2.wallet = st.wallet := by
  unfold handleConnectionDeepLinkParams
  have h1 := localStorageGetUint8_wallet st deepLinkSecretKeyStorage
  rcases hg : localStorageGetUint8 st deepLinkSecretKeyStorage with ⟨r, st1⟩
  rw [hg] at h1
  cases r with
  | error e => simpa using h1
  | ok sk =>
    simp only []
    rcases b58decodeStr a with _ | ppk
    · simpa using h1
    · rcases b58decodeStr c with _ | db <;> rcases b58decodeStr b with _ | nb
      all_goals simp_all [localStorageSet, storageSetRaw, emit]
      all_goals rcases naclBoxOpenAfter db nb (naclBoxBefore ppk sk) with _ | dec
      all_goals simp_all
      all_goals (split <;> (try split) <;> simp_all)

/-- C4 counterexample: running `connect` at a concrete well-formed completion
state succeeds and establishes the wallet identity, yet `connected` is false —
the getter only consults the wallet object, which the deep-link path never
attaches. -/
theorem c4_connected_false_after_handshake :
    (connect completionState).1 = .ok () ∧
    (connect completionState).2.publicKey = some walletPkBytes ∧
    (connect completionState).2.events = [.connectE walletPkBytes] ∧
    connectedProp (connect completionState).2 = false := by
  set_option maxRecDepth 4000 in decide

/-- C4 (amended): `connected` is true iff the adapter's wallet object is
present with its `isConnected` flag set; the identity (publicKey) is not
consulted, and the deep-link completion phase never changes the wallet field,
so after a deep-link handshake `connected` stays exactly what it was. -/
theorem c4_connected_iff_wallet (st : AdapterState) :
    (connectedProp st = true ↔ ∃ w, st.wallet = some w ∧ w.isConnected = true) ∧
    (∀ a b c, (handleConnectionDeepLinkParams st a b c).2.wallet = st.wallet) := by
  constructor
  · unfold connectedProp
    rcases hw : st.wallet with _ | w
    · simp
    · simp
  · intro a b c
    exact handleConnection_wallet st a b c

/-- C6 counterexample: a delegate failure that is already a typed wallet error
(here a connection error) is not passed through by `signTransaction`: it is
wrapped into a sign-transaction error carrying the original as cause. -/
theorem c6_typed_error_wrapped :
    (signTransaction typedErrState txA).1 =
      .error (.walletErrC .signTransactionE "boom" (.walletErr .connection "boom")) ∧
    (signTransaction typedErrState txA).1 ≠
      .error (.walletErr .connection "boom") := by decide

/-- C6 (amended): `sendTransaction`'s extension path passes already-typed
wallet errors through unwrapped and wraps foreign errors into a
send-transaction error preserving message and cause; `signTransaction`,
`signAllTransactions` and `signMessage` instead wrap every delegate failure —
typed or not — into their matching error, preserving message and cause. -/
theorem c6_error_wrapping (st : AdapterState) (w : PhantomWallet) (t : Tx)
    (ts : List Tx) (m : Bytes) (conn : Connection) (o : SendTransactionOptions)
    (e : JsError) (hw : st.wallet = some w) :
    (st.readyState ≠ .Loadable → w.signAndSendResult = .error e →
      e.isWalletError = true → (sendTransaction st t conn o).1 = .error e) ∧
    (st.readyState ≠ .Loadable → w.signAndSendResult = .error e →
      e.isWalletError = false →
      (sendTransaction st t conn o).1 = .error (.walletErrC .sendTransactionE e.message e)) ∧
    (w.signTransactionResult = .error e →
      (signTransaction st t).1 = .error (.walletErrC .signTransactionE e.message e)) ∧
    (w.signAllResult = .error e →
      (signAllTransactions st ts).1 = .error (.walletErrC .signTransactionE e.message e)) ∧
    (w.signMessageResult = .error e →
      (signMessage st m).1 = .error (.walletErrC .signMessageE e.message e)) := by
  refine ⟨?_, ?_, ?_, ?_, ?_⟩
  · intro hrs hres hty
    unfold sendTransaction
    rw [if_neg hrs, hw]
    simp [signAndPrepareTransaction, hres, hty]
  · intro hrs hres hty
    unfold sendTransaction
    rw [if_neg hrs, hw]
    simp [signAndPrepareTransaction, hres, hty]
  · intro hres
    unfold signTransaction
    rw [hw]
    simp only [hres]
  · intro hres
    unfold signAllTransactions
    rw [hw]
    simp only [hres]
  · intro hres
    unfold signMessage
    rw [hw]
    simp only [hres]

/-- C6 witness: the wrapping behaviour evaluated at the concrete state whose
delegate raises a typed connection error. -/
theorem c6_error_wrapping_witness :
    (signTransaction typedErrState txA).1 ≠
      .error (.walletErrC .signMessageE "boom" (.walletErr .connection "boom")) ∧
    (signTransaction typedErrState txA).1 =
      .error (.walletErrC .signTransactionE
        (JsError.message (.walletErr .connection "boom")) (.walletErr .connection "boom")) := by
  have main := c6_error_wrapping typedErrState walletTypedErr txA [] [1] connA {}
    (.walletErr .connection "boom") rfl
  exact ⟨by rw [main.2.2.1 rfl]; decide, main.2.2.1 rfl⟩

/-- C7: the request phase of the deep-link connect generates exactly one
fresh key pair (one entropy draw), persists both halves under their storage
keys, navigates once to the connect URL whose `app_url` and `redirect_link`
both equal the current URL with the five protocol parameters stripped, and
whose `dapp_encryption_public_key` base-58-decodes back to exactly the
generated public key. -/
theorem c7_request_phase (st : AdapterState)
    (h : ∀ x ∈ (st.entropy st.entropyIdx).publicKey, x < 256) :
    (connectUsingDeepLink st).1 = .ok () ∧
    (connectUsingDeepLink st).2.entropyIdx = st.entropyIdx + 1 ∧
    storageGet (connectUsingDeepLink st).2 deepLinkPublicKeyStorage
      = some (bytesToStorageString (st.entropy st.entropyIdx).publicKey) ∧
    storageGet (connectUsingDeepLink st).2 deepLinkSecretKeyStorage
      = some (bytesToStorageString (st.entropy st.entropyIdx).secretKey) ∧
    (connectUsingDeepLink st).2.navigations = st.navigations ++
      [("connect",
        [("app_url", makeRedirectUrl st.href),
         ("dapp_encryption_public_key",
           b58encodeBytes (st.entropy st.entropyIdx).publicKey),
         ("redirect_link", makeRedirectUrl st.href),
         ("cluster", "devnet")])] ∧
    b58decodeStr (b58encodeBytes (st.entropy st.entropyIdx).publicKey)
      = some (st.entropy st.entropyIdx).publicKey := by
  refine ⟨rfl, rfl, ?_, ?_, rfl, b58_roundtrip _ h⟩
  · simp only [connectUsingDeepLink, naclBoxKeyPair, localStorageSet]
    rw [storageGet_navigate, storageGet_setRaw_ne _ _ _ _ (by decide), storageGet_setRaw_eq]
  · simp only [connectUsingDeepLink, naclBoxKeyPair, localStorageSet]
    rw [storageGet_navigate, storageGet_setRaw_eq]

/-- C7 witness: the request phase evaluated at the concrete fresh Loadable
state. -/
theorem c7_request_phase_witness :
    (∀ x ∈ (baseState.entropy baseState.entropyIdx).publicKey, x < 256) ∧
    (connectUsingDeepLink baseState).1 = .ok () ∧
    (connectUsingDeepLink baseState).2.entropyIdx = baseState.entropyIdx + 1 ∧
    storageGet (connectUsingDeepLink baseState).2 deepLinkPublicKeyStorage
      = some (bytesToStorageString (baseState.entropy baseState.entropyIdx).publicKey) ∧
    b58decodeStr (b58encodeBytes (baseState.entropy baseState.entropyIdx).publicKey)
      = some (baseState.entropy baseState.entropyIdx).publicKey := by
  have main := c7_request_phase baseState (by decide)
  exact ⟨by decide, main.1, main.2.1, main.2.2.1, main.2.2.2.2.2⟩

/-- C8: `disconnect` is total (never throws): it always appends a disconnect
event last; with no wallet session it is exactly the disconnect-event
emission; with a session it unsubscribes, clears wallet and identity, and a
failing underlying disconnect call is reported via the error event without
preventing completion; the wallet is always cleared, and a second disconnect
only emits another disconnect event (idempotence on the state). -/
theorem c8_disconnect_idempotent (st : AdapterState) :
    (∃ pre, (disconnect st).events = st.events ++ pre ++ [.disconnectE]) ∧
    (st.wallet = none → disconnect st = emit st .disconnectE) ∧
    (∀ w e, st.wallet = some w → w.disconnectResult = .error e →
      disconnect st = emit (emit { st with
          walletSubscribed := false
          wallet := none
          publicKey := none } (.errorE (.walletErrC .disconnectionE e.message e)))
        .disconnectE) ∧
    (∀ w, st.wallet = some w → w.disconnectResult = .ok () →
      disconnect st = emit { st with
          walletSubscribed := false
          wallet := none
          publicKey := none } .disconnectE) ∧
    (disconnect st).wallet = none ∧
    disconnect (disconnect st) = emit (disconnect st) .disconnectE := by
  have hnone : ∀ s : AdapterState, s.wallet = none → disconnect s = emit s .disconnectE := by
    intro s hs
    unfold disconnect
    rw [hs]
  have hwalletNone : (disconnect st).wallet = none := by
    unfold disconnect
    rcases hw : st.wallet with _ | w
    · simp [hw, emit]
    · rcases hd : w.disconnectResult with e | u <;> simp [hw, hd, emit]
  refine ⟨?_, hnone st, ?_, ?_, hwalletNone, hnone _ hwalletNone⟩
  · unfold disconnect
    rcases hw : st.wallet with _ | w
    · exact ⟨[], by simp [hw, emit]⟩
    · rcases hd : w.disconnectResult with e | u
      · exact ⟨[.errorE (.walletErrC .disconnectionE e.message e)], by simp [hw, hd, emit]⟩
      · exact ⟨[], by simp [hw, hd, emit]⟩
  · intro w e hw hd
    unfold disconnect
    rw [hw]
    simp only []
    rw [hd]
  · intro w hw hd
    unfold disconnect
    rw [hw]
    simp only []
    rw [hd]

/-- C8 witness: disconnect evaluated at a concrete state whose underlying
disconnect call fails. -/
theorem c8_disconnect_idempotent_witness :
    disconnect disconnectState = emit (emit { disconnectState with
        walletSubscribed := false
        wallet := none
        publicKey := none }
      (.errorE (.walletErrC .disconnectionE "rpc closed" (.foreign "rpc closed"))))
      .disconnectE ∧
    disconnect (disconnect disconnectState)
      = emit (disconnect disconnectState) .disconnectE := by
  have main := c8_disconnect_idempotent disconnectState
  exact ⟨main.2.2.1 failingDisconnectWallet (.foreign "rpc closed") rfl rfl,
    main.2.2.2.2.2⟩

/-- C9: after construction in any host-capable environment the readyState is
Loadable and stays Loadable across every adapter operation and listener: the
hardcoded `useDeepLink = true` means the polling detector is never armed
(pollingActive is false forever, so readyState never becomes Installed), and
connect's strategy dispatch always takes the deep-link branch, leaving the
direct-extension branch unreachable. -/
theorem c9_readyState_always_loadable (env : HostEnv) (hcap : env.hostCapable = true)
    (st : AdapterState) (h : Reachable (mkAdapter env) st) :
    st.readyState = .Loadable ∧ st.pollingActive = false ∧
    st.readyState ≠ .Installed ∧
    connectDispatch { st with connecting := true } =
      connectLoadableBranch { st with connecting := true } := by
  have hbase : (mkAdapter env).readyState = .Loadable ∧
      (mkAdapter env).pollingActive = false := by
    unfold mkAdapter
    rw [hcap]
    simp [emit]
  have hmain : st.readyState = .Loadable ∧ st.pollingActive = false := by
    unfold Reachable at h
    induction h with
    | refl => exact hbase
    | tail hsteps hstep ih => exact step_preserves_loadable hstep ih.1 ih.2
  have hcond : ({ st with connecting := true } : AdapterState).readyState
      = .Loadable := hmain.1
  refine ⟨hmain.1, hmain.2, ?_, ?_⟩
  · rw [hmain.1]
    intro hc
    cases hc
  · unfold connectDispatch
    rw [if_pos hcond]

/-- C9 witness: the freshly constructed adapter in a concrete host-capable
environment. -/
theorem c9_readyState_always_loadable_witness :
    (mkAdapter envA).readyState = .Loadable ∧ (mkAdapter envA).pollingActive = false ∧
    (mkAdapter envA).readyState ≠ .Installed ∧
    connectDispatch { mkAdapter envA with connecting := true } =
      connectLoadableBranch { mkAdapter envA with connecting := true } :=
  c9_readyState_always_loadable envA rfl (mkAdapter envA) Relation.ReflTransGen.refl

/-- C10: in the deep-link transaction dispatch, a missing persisted dapp
public key or shared secret raises the storage-key-missing wallet error with
the error event emitted and no navigation recorded; a missing session token
does not fail: the payload is encrypted with a null session field and the
dispatch navigates and completes. -/
theorem c10_dispatch_storage_guards (st : AdapterState) (t : Tx) (conn : Connection)
    (o : SendTransactionOptions) :
    (storageGet st deepLinkPublicKeyStorage = none →
      (sendTransactionUsingDeepLink st t conn o).1 = .error (.walletErr .generic
        ("Key " ++ deepLinkPublicKeyStorage ++ " not stored")) ∧
      (sendTransactionUsingDeepLink st t conn o).2.navigations = st.navigations ∧
      (sendTransactionUsingDeepLink st t conn o).2.events = st.events ++
        [.errorE (.walletErr .generic
          ("Key " ++ deepLinkPublicKeyStorage ++ " not stored"))]) ∧
    (∀ s, storageGet st deepLinkPublicKeyStorage = some s → s ≠ "" →
      storageGet st deepLinkSharedSecretStorage = none →
      (sendTransactionUsingDeepLink st t conn o).1 = .error (.walletErr .generic
        ("Key " ++ deepLinkSharedSecretStorage ++ " not stored")) ∧
      (sendTransactionUsingDeepLink st t conn o).2.navigations = st.navigations ∧
      (sendTransactionUsingDeepLink st t conn o).2.events = st.events ++
        [.errorE (.walletErr .generic
          ("Key " ++ deepLinkSharedSecretStorage ++ " not stored"))]) ∧
    (∀ s q, storageGet st deepLinkPublicKeyStorage = some s → s ≠ "" →
      storageGet st deepLinkSharedSecretStorage = some q → q ≠ "" →
      storageGet st deepLinkSessionStorage = none →
      ∃ txs, (sendTransactionUsingDeepLink st t conn o).1 = .ok "TransactionSignature" ∧
        (sendTransactionUsingDeepLink st t conn o).2.navigations = st.navigations ++
          [("signAndSendTransaction",
            [("dapp_encryption_public_key", b58encodeBytes (storageStringToBytes s)),
             ("nonce", b58encodeBytes (st.nonceStream st.nonceIdx)),
             ("redirect_link", makeRedirectUrl st.href),
             ("payload", b58encodeBytes (naclBoxAfter
               (encodeSendPayload txs ⟨o.preflightCommitment⟩ none)
               (st.nonceStream st.nonceIdx) (storageStringToBytes q)))])]) := by
  refine ⟨?_, ?_, ?_⟩
  · intro h1
    unfold sendTransactionUsingDeepLink
    simp only [signAndPrepareTransaction]
    rw [localStorageGetUint8_on_none st _ h1]
    exact ⟨by trivial, by trivial, by trivial⟩
  · intro s h1 h2 h3
    unfold sendTransactionUsingDeepLink
    simp only [signAndPrepareTransaction]
    rw [localStorageGetUint8_on_some st _ s h1 h2]
    simp only []
    rw [localStorageGetUint8_on_none st _ h3]
    exact ⟨by trivial, by trivial, by trivial⟩
  · intro s q h1 h2 h3 h4 h5
    unfold sendTransactionUsingDeepLink
    simp only [signAndPrepareTransaction]
    rw [localStorageGetUint8_on_some st _ s h1 h2]
    simp only []
    rw [localStorageGetUint8_on_some st _ q h3 h4]
    simp only []
    rw [h5]
    exact ⟨_, trivial, rfl⟩

/-- C10 witness: the missing-public-key and missing-session cases evaluated at
concrete states. -/
theorem c10_dispatch_storage_guards_witness :
    (sendTransactionUsingDeepLink baseState txA connA {}).1 = .error (.walletErr .generic
      ("Key " ++ deepLinkPublicKeyStorage ++ " not stored")) ∧
    (∃ txs, (sendTransactionUsingDeepLink stockedState txA connA {}).1
        = .ok "TransactionSignature" ∧
      (sendTransactionUsingDeepLink stockedState txA connA {}).2.navigations
        = stockedState.navigations ++ [("signAndSendTransaction",
          [("dapp_encryption_public_key",
            b58encodeBytes (storageStringToBytes (bytesToStorageString [1, 2, 3, 4]))),
           ("nonce", b58encodeBytes (stockedState.nonceStream stockedState.nonceIdx)),
           ("redirect_link", makeRedirectUrl stockedState.href),
           ("payload", b58encodeBytes (naclBoxAfter
             (encodeSendPayload txs ⟨none⟩ none)
             (stockedState.nonceStream stockedState.nonceIdx)
             (storageStringToBytes (bytesToStorageString sharedWD))))])]) := by
  constructor
  · exact ((c10_dispatch_storage_guards baseState txA connA {}).1 rfl).1
  · exact (c10_dispatch_storage_guards stockedState txA connA {}).2.2
      (bytesToStorageString [1, 2, 3, 4]) (bytesToStorageString sharedWD)
      rfl (by decide) rfl (by decide) rfl

end PhantomAdapter

